import Mathlib

/-!
# PktSerial: single-wire packet serial driver

A shallow embedding of `source/drivers/PktSerial.cpp`.  The object's fields become a
record, every member function becomes a function on that record, and every call into a
collaborator (the single-wire serial engine `sws`, the pin `sp`, the system timer, the
event bus) is appended to a trace and folded into the few configuration fields that
record what was last requested of the hardware.

The class declaration `PktSerial.h` and the component base class are not part of the
sources at hand, so the constants they define are collected in `Config` and every
function takes the configuration as its first argument.
-/

set_option autoImplicit false

/-! ## Constants -/

/-- Constants used by `PktSerial.cpp` whose definitions live in headers that are not
among the sources (`PktSerial.h`, `CodalComponent.h`, `CodalConfig.h`).  The five flag
masks are bits of the component's `status` word. -/
structure Config where
  PKT_SERIAL_RECEIVING : Nat
  PKT_SERIAL_TRANSMITTING : Nat
  PKT_SERIAL_TX_DRAIN_ENABLE : Nat
  DEVICE_COMPONENT_RUNNING : Nat
  DEVICE_COMPONENT_STATUS_SYSTEM_TICK : Nat
  PKT_SERIAL_MAXIMUM_BUFFERS : Nat
  PKT_SERIAL_PACKET_SIZE : Nat
  PKT_SERIAL_DATA_SIZE : Nat
  SCHEDULER_TICK_PERIOD_US : Nat
deriving DecidableEq, Repr

/-- The flag masks are usable as independent status bits: each is non-zero and no two of
them share a bit. -/
def Config.FlagsDistinct (c : Config) : Prop :=
  c.PKT_SERIAL_RECEIVING ≠ 0 ∧ c.PKT_SERIAL_TRANSMITTING ≠ 0 ∧
  c.PKT_SERIAL_TX_DRAIN_ENABLE ≠ 0 ∧
  c.PKT_SERIAL_RECEIVING &&& c.PKT_SERIAL_TRANSMITTING = 0 ∧
  c.PKT_SERIAL_TX_DRAIN_ENABLE &&& c.PKT_SERIAL_RECEIVING = 0 ∧
  c.PKT_SERIAL_TX_DRAIN_ENABLE &&& c.PKT_SERIAL_TRANSMITTING = 0 ∧
  (c.DEVICE_COMPONENT_RUNNING ||| c.DEVICE_COMPONENT_STATUS_SYSTEM_TICK)
      &&& c.PKT_SERIAL_RECEIVING = 0 ∧
  (c.DEVICE_COMPONENT_RUNNING ||| c.DEVICE_COMPONENT_STATUS_SYSTEM_TICK)
      &&& c.PKT_SERIAL_TRANSMITTING = 0

instance (c : Config) : Decidable c.FlagsDistinct :=
  inferInstanceAs (Decidable (_ ∧ _ ∧ _ ∧ _ ∧ _ ∧ _ ∧ _ ∧ _))

/-- Modelled from the spec: `PktSerial.h` is missing.  A configuration with the default
queue capacity of 10 buffers, a 32-byte packet whose four header bytes (crc, address,
size) precede 28 data bytes, a 4 ms scheduler tick, and five distinct status bits.  It
is used to evaluate the functions on concrete inputs. -/
def sampleConfig : Config where
  PKT_SERIAL_RECEIVING := 0x02
  PKT_SERIAL_TRANSMITTING := 0x04
  PKT_SERIAL_TX_DRAIN_ENABLE := 0x08
  DEVICE_COMPONENT_RUNNING := 0x1000
  DEVICE_COMPONENT_STATUS_SYSTEM_TICK := 0x2000
  PKT_SERIAL_MAXIMUM_BUFFERS := 10
  PKT_SERIAL_PACKET_SIZE := 32
  PKT_SERIAL_DATA_SIZE := 28
  SCHEDULER_TICK_PERIOD_US := 4000

/-- Completion codes of the serial engine, `SWS_EVT_*` in `SingleWireSerial.h`. -/
def SWS_EVT_DATA_RECEIVED : Nat := 1

/-- Completion code: the DMA transmission finished. -/
def SWS_EVT_DATA_SENT : Nat := 2

/-- Completion code: the transfer failed. -/
def SWS_EVT_ERROR : Nat := 3

/-- Completion code: data was dropped. -/
def SWS_EVT_DATA_DROPPED : Nat := 4

/-- Return codes of the driver (`ErrorNo.h`). -/
inductive DeviceCode where
  | DEVICE_OK
  | DEVICE_INVALID_PARAMETER
  | DEVICE_NO_RESOURCES
deriving DecidableEq, Repr

open DeviceCode

/-! ## Status word -/

/-- The C test `status & mask`: some bit of `mask` is set in `status`. -/
def flagSet (status mask : Nat) : Bool := status &&& mask != 0

/-- The C statement `status |= mask`. -/
def setFlag (status mask : Nat) : Nat := status ||| mask

/-- The C statement `status &= ~(mask)`: every bit of `mask` is cleared and every other
bit is kept.  On naturals the complement is expressed by removing from `status` the bits
it has in common with `mask`. -/
def clearFlag (status mask : Nat) : Nat := status ^^^ (status &&& mask)

/-! ## Packets and queues -/

/-- One packet buffer (`PktSerialPkt`): a 16-bit `crc`, the 8-bit `address` and `size`
and the data bytes.  The `next` pointer of the C struct is represented by the position of
the packet in the list that models a queue. -/
structure PktSerialPkt where
  crc : Nat
  address : Nat
  size : Nat
  data : List Nat
deriving DecidableEq, Repr

/-- Result of a queue operation: the value returned, the queue `*queue` afterwards and
whether interrupts are enabled afterwards. -/
structure QueueResult (α : Type) where
  ret : α
  queue : List PktSerialPkt
  irq : Bool
deriving DecidableEq, Repr

namespace PktSerial

/-- `PktSerial::popQueue`.  A queue is the list of packets reached from `*queue` through
the `next` pointers; `irq` tells whether interrupts are enabled on entry. -/
def popQueue (queue : List PktSerialPkt) (irq : Bool) : QueueResult (Option PktSerialPkt) :=
  match queue with
  | [] => { ret := none, queue := [], irq := irq }
  | ret :: next => { ret := some ret, queue := next, irq := true }

/-- The search loop of `PktSerial::removeFromQueue`: `previous` has already been
compared, `rest` is the chain starting at `p`.  Returns the match (if any) and the chain
that hangs off `previous` afterwards. -/
def removeLoop (address : Nat) : List PktSerialPkt → Option PktSerialPkt × List PktSerialPkt
  | [] => (none, [])
  | p :: rest =>
    if address = p.address then (some p, rest)
    else
      let r := removeLoop address rest
      (r.1, p :: r.2)

/-- `PktSerial::removeFromQueue`. -/
def removeFromQueue (queue : List PktSerialPkt) (address : Nat) (irq : Bool) :
    QueueResult (Option PktSerialPkt) :=
  match queue with
  | [] => { ret := none, queue := [], irq := irq }
  | previous :: p =>
    if address = previous.address then
      { ret := some previous, queue := p, irq := true }
    else
      let r := removeLoop address p
      { ret := r.1, queue := previous :: r.2, irq := true }

/-- The walk `while (p->next != NULL) { p = p->next; queueDepth++; }` of
`PktSerial::addToQueue`, started at packet `p` whose successors are `rest`.  Returns the
final `queueDepth`. -/
def walkToTail : List PktSerialPkt → Nat → Nat
  | [], queueDepth => queueDepth
  | _ :: rest, queueDepth => walkToTail rest (queueDepth + 1)

/-- The assignment `p->next = packet` performed on the last packet of the chain. -/
def linkAtTail (packet : PktSerialPkt) : List PktSerialPkt → List PktSerialPkt
  | [] => [packet]
  | p :: rest => p :: linkAtTail packet rest

/-- `PktSerial::addToQueue`.  The packet pointer may be null (`none`); the first
statement `packet->next = NULL` then dereferences a null pointer and the call has no
result.  On the `DEVICE_NO_RESOURCES` path the packet is freed and the function returns
before `target_enable_irq()`. -/
def addToQueue (c : Config) (queue : List PktSerialPkt) (packet : Option PktSerialPkt)
    (_irq : Bool) : Option (QueueResult DeviceCode) :=
  match packet with
  | none => none
  | some packet =>
    match queue with
    | [] => some { ret := DEVICE_OK, queue := [packet], irq := true }
    | p :: rest =>
      let queueDepth := walkToTail rest 0
      if queueDepth ≥ c.PKT_SERIAL_MAXIMUM_BUFFERS then
        some { ret := DEVICE_NO_RESOURCES, queue := p :: rest, irq := false }
      else
        some { ret := DEVICE_OK, queue := p :: linkAtTail packet rest, irq := true }

end PktSerial

/-! ## Collaborators -/

/-- Modes of the single-wire serial engine.  `SingleWireRx` and `SingleWireTx` are
declared in `SingleWireSerial.h`; `SingleWireDisconnected` is the enumerator that
`PktSerial.cpp` passes to `setMode`. -/
inductive SingleWireMode where
  | SingleWireRx
  | SingleWireTx
  | SingleWireDisconnected
deriving DecidableEq, Repr

/-- Pull configuration handed to `Pin::getDigitalValue`. -/
inductive PullMode where
  | None
  | Up
deriving DecidableEq, Repr

/-- Argument of `Pin::eventOn`. -/
inductive PinEvent where
  | DEVICE_PIN_EVENT_NONE
  | DEVICE_PIN_EVENT_ON_EDGE
deriving DecidableEq, Repr

/-- Event codes raised by the driver under its own component id. -/
inductive PktEvent where
  | PKT_SERIAL_EVT_DATA_READY
  | PKT_SERIAL_EVT_BUS_ERROR
  | PKT_SERIAL_EVT_DRAIN
deriving DecidableEq, Repr

/-- What the pin was last asked to be: untouched, a digital output driving a level, or
a digital input with a pull. -/
inductive PinMode where
  | unconfigured
  | output (level : Nat)
  | input (pull : PullMode)
deriving DecidableEq, Repr

/-- A call made by the driver into one of its collaborators.  A DMA call records the
buffer pointer it is given as the buffer that pointer designates (`none` for a null
pointer) together with the length. -/
inductive HwCall where
  | setBaud (baud : Nat)
  | setMode (mode : SingleWireMode)
  | receiveDMA (buf : Option PktSerialPkt) (len : Nat)
  | sendDMA (buf : Option PktSerialPkt) (len : Nat)
  | abortDMA
  | setDigitalValue (value : Nat)
  | getDigitalValue (pull : PullMode)
  | eventOn (event : PinEvent)
  | waitUs (us : Nat)
  | eventAfterUs (us : Nat) (event : PktEvent)
  | fire (event : PktEvent)
deriving DecidableEq, Repr

open SingleWireMode PullMode PinEvent PktEvent

/-! ## Driver state -/

/-- The fields of a `PktSerial` object together with the observable state of its
collaborators.  `status`, `rxBuf`, `txBuf`, `rxQueue`, `txQueue`, `timeoutValue` and
`timeoutCounter` are the members of the class; `irq` tells whether interrupts are
enabled; `mode`, `pin` and `pinEvent` hold the last mode requested of the serial engine,
the last configuration requested of the pin and the last argument of `eventOn`; `trace`
lists every collaborator call in the order it was issued. -/
structure PktSerial where
  status : Nat
  rxBuf : Option PktSerialPkt
  txBuf : Option PktSerialPkt
  rxQueue : List PktSerialPkt
  txQueue : List PktSerialPkt
  timeoutValue : Nat
  timeoutCounter : Nat
  irq : Bool
  mode : Option SingleWireMode
  pin : PinMode
  pinEvent : PinEvent
  trace : List HwCall
deriving DecidableEq, Repr

namespace PktSerial

/-- Issue one collaborator call: it is appended to the trace and, when it configures
the serial engine or the pin, recorded as the current configuration. -/
def call (h : HwCall) (s : PktSerial) : PktSerial :=
  let s := { s with trace := s.trace ++ [h] }
  match h with
  | .setMode m => { s with mode := some m }
  | .setDigitalValue v => { s with pin := .output v }
  | .getDigitalValue pull => { s with pin := .input pull }
  | .eventOn e => { s with pinEvent := e }
  | _ => s

/-- The object right after `PktSerial::PktSerial`: null buffers, empty queues, a zero
status word and zero timeout fields; the constructor sets the baud rate to 1 MBaud. -/
def init : PktSerial :=
  call (.setBaud 1000000)
    { status := 0, rxBuf := none, txBuf := none, rxQueue := [], txQueue := [],
      timeoutValue := 0, timeoutCounter := 0, irq := true, mode := none,
      pin := .unconfigured, pinEvent := DEVICE_PIN_EVENT_NONE, trace := [] }

/-- `PktSerial::configure`. -/
def configure (events : Bool) (s : PktSerial) : PktSerial :=
  let s := call (.getDigitalValue Up) s
  if events then call (.eventOn DEVICE_PIN_EVENT_ON_EDGE) s
  else call (.eventOn DEVICE_PIN_EVENT_NONE) s

/-- `PktSerial::onFallingEdge`. -/
def onFallingEdge (c : Config) (s : PktSerial) : PktSerial :=
  if flagSet s.status (c.PKT_SERIAL_RECEIVING ||| c.PKT_SERIAL_TRANSMITTING)
      || !flagSet s.status c.DEVICE_COMPONENT_RUNNING then
    s
  else
    let s := call (.eventOn DEVICE_PIN_EVENT_NONE) s
    let s := call (.getDigitalValue PullMode.None) s
    let s := { s with timeoutCounter := 0 }
    let s := { s with status := setFlag s.status c.PKT_SERIAL_RECEIVING }
    call (.receiveDMA s.rxBuf c.PKT_SERIAL_PACKET_SIZE) s

/-- The value assigned to `timeoutValue` by `PktSerial::periodicCallback`, computed in
unsigned 32-bit arithmetic from the baud rate reported by the serial engine. -/
def timeoutTicks (c : Config) (baud : Nat) : Nat :=
  let timePerSymbol := 1000000 / baud
  let timePerSymbol := (timePerSymbol * 100 * c.PKT_SERIAL_PACKET_SIZE) % 2 ^ 32
  timePerSymbol / c.SCHEDULER_TICK_PERIOD_US

/-- `PktSerial::periodicCallback`; `baud` is the value returned by `sws.getBaud()`.
The declarations of `timeoutValue` and `timeoutCounter` are in the absent class
declaration; both are taken to be unsigned 32-bit, like the local `timePerSymbol`. -/
def periodicCallback (c : Config) (baud : Nat) (s : PktSerial) : PktSerial :=
  let s := if s.timeoutCounter = 0 then { s with timeoutValue := timeoutTicks c baud } else s
  if flagSet s.status c.PKT_SERIAL_RECEIVING then
    let s := { s with timeoutCounter := (s.timeoutCounter + 1) % 2 ^ 32 }
    if s.timeoutCounter > s.timeoutValue then
      let s := call .abortDMA s
      let s := call (.fire PKT_SERIAL_EVT_BUS_ERROR) s
      let s := { s with timeoutCounter := 0 }
      let s := { s with status := clearFlag s.status c.PKT_SERIAL_RECEIVING }
      let s := call (.setMode SingleWireDisconnected) s
      let s := call (.setDigitalValue 1) s
      configure true s
    else s
  else s

/-- `PktSerial::dmaComplete`; `evt` is `evt.value` and `fresh` the contents of the
buffer returned by `malloc` on the receive path.  The result is `none` when the receive
path hands a null `rxBuf` to `addToQueue`. -/
def dmaComplete (c : Config) (evt : Nat) (fresh : PktSerialPkt) (s : PktSerial) :
    Option PktSerial :=
  let body : Option PktSerial :=
    if evt = SWS_EVT_ERROR then
      let s :=
        if flagSet s.status c.PKT_SERIAL_TRANSMITTING then
          { s with status := clearFlag s.status c.PKT_SERIAL_TRANSMITTING, txBuf := none }
        else s
      let s :=
        if flagSet s.status c.PKT_SERIAL_RECEIVING then
          let s := { s with status := clearFlag s.status c.PKT_SERIAL_RECEIVING }
          let s := { s with timeoutCounter := 0 }
          let s := call .abortDMA s
          call (.fire PKT_SERIAL_EVT_BUS_ERROR) s
        else s
      some s
    else
      let received : Option PktSerial :=
        if evt = SWS_EVT_DATA_RECEIVED then
          let s := { s with status := clearFlag s.status c.PKT_SERIAL_RECEIVING }
          match addToQueue c s.rxQueue s.rxBuf s.irq with
          | none => none
          | some r =>
            let s := { s with rxQueue := r.queue, irq := r.irq }
            let s := { s with rxBuf := some fresh }
            some (call (.fire PKT_SERIAL_EVT_DATA_READY) s)
        else some s
      match received with
      | none => none
      | some s =>
        if evt = SWS_EVT_DATA_SENT then
          let s := { s with status := clearFlag s.status c.PKT_SERIAL_TRANSMITTING }
          let s := { s with txBuf := none }
          some (call (.eventAfterUs 4000 PKT_SERIAL_EVT_DRAIN) s)
        else some s
  match body with
  | none => none
  | some s =>
    let s := call (.setMode SingleWireDisconnected) s
    let s := call (.setDigitalValue 1) s
    some (configure true s)

/-- `PktSerial::getPacket()`: pops the head of the RX queue. -/
def getPacket (s : PktSerial) : Option PktSerialPkt × PktSerial :=
  let r := popQueue s.rxQueue s.irq
  (r.ret, { s with rxQueue := r.queue, irq := r.irq })

/-- `PktSerial::getPacket(uint8_t address)`: removes the first packet with that
address from the RX queue. -/
def getPacketAt (address : Nat) (s : PktSerial) : Option PktSerialPkt × PktSerial :=
  let r := removeFromQueue s.rxQueue address s.irq
  (r.ret, { s with rxQueue := r.queue, irq := r.irq })

/-- `PktSerial::start`; `fresh` is the contents of the buffer returned by `malloc` when
`rxBuf` is null and `line` the level returned by `sp.getDigitalValue(PullMode::Up)`. -/
def start (c : Config) (fresh : PktSerialPkt) (line : Nat) (s : PktSerial) : PktSerial :=
  let s := if s.rxBuf = none then { s with rxBuf := some fresh } else s
  let s := configure true s
  let s := { s with irq := false }
  let s := { s with status := 0 }
  let running := c.DEVICE_COMPONENT_RUNNING ||| c.DEVICE_COMPONENT_STATUS_SYSTEM_TICK
  let s := { s with status := setFlag s.status running }
  let s := { s with irq := true }
  let s := call (.getDigitalValue Up) s
  let s := if line = 0 then onFallingEdge c s else s
  call (.eventOn DEVICE_PIN_EVENT_ON_EDGE) s

/-- `PktSerial::stop`. -/
def stop (c : Config) (s : PktSerial) : PktSerial :=
  let running := c.DEVICE_COMPONENT_RUNNING ||| c.DEVICE_COMPONENT_STATUS_SYSTEM_TICK
  let s := { s with status := clearFlag s.status running }
  let s := if s.rxBuf.isSome then { s with rxBuf := none } else s
  configure false s

/-- `PktSerial::sendPacket`, the drain routine; `line` is the level returned by
`sp.getDigitalValue(PullMode::Up)` if the routine samples the line. -/
def sendPacket (c : Config) (line : Nat) (s : PktSerial) : PktSerial :=
  let s := { s with status := setFlag s.status c.PKT_SERIAL_TX_DRAIN_ENABLE }
  if flagSet s.status c.PKT_SERIAL_RECEIVING then
    call (.eventAfterUs 4000 PKT_SERIAL_EVT_DRAIN) s
  else
    -- the block guarded by `!(status & PKT_SERIAL_TRANSMITTING)` either returns
    -- (`inl`) or falls through to the code after it (`inr`)
    let block : PktSerial ⊕ PktSerial :=
      if !flagSet s.status c.PKT_SERIAL_TRANSMITTING then
        let s := call (.getDigitalValue Up) s
        if line = 0 then
          let s := onFallingEdge c s
          .inl (call (.eventAfterUs 4000 PKT_SERIAL_EVT_DRAIN) s)
        else
          let s := call (.setDigitalValue 1) s
          let s := configure true s
          if !s.txQueue.isEmpty then
            let s := { s with status := setFlag s.status c.PKT_SERIAL_TRANSMITTING }
            let r := popQueue s.txQueue s.irq
            let s := { s with txBuf := r.ret, txQueue := r.queue, irq := r.irq }
            let s := call (.setDigitalValue 0) s
            let s := call (.waitUs 10) s
            let s := call (.setDigitalValue 1) s
            .inl (call (.eventAfterUs 100 PKT_SERIAL_EVT_DRAIN) s)
          else .inr s
      else .inr s
    match block with
    | .inl s => s
    | .inr s =>
      if flagSet s.status c.PKT_SERIAL_TRANSMITTING then
        call (.sendDMA s.txBuf c.PKT_SERIAL_PACKET_SIZE) s
      else
        { s with status := clearFlag s.status c.PKT_SERIAL_TX_DRAIN_ENABLE }

/-- `PktSerial::send(PktSerialPkt*)`; the result is `none` when `pkt` is null, because
`addToQueue` dereferences it. -/
def send (c : Config) (pkt : Option PktSerialPkt) (line : Nat) (s : PktSerial) :
    Option (DeviceCode × PktSerial) :=
  match addToQueue c s.txQueue pkt s.irq with
  | none => none
  | some r =>
    let ret := r.ret
    let s := { s with txQueue := r.queue, irq := r.irq }
    let s := if !flagSet s.status c.PKT_SERIAL_TX_DRAIN_ENABLE then sendPacket c line s else s
    some (ret, s)

/-- Modelled from the spec: the declaration of `struct PktSerialPkt` is missing; the
packet is laid out as `crc` (two bytes), `address`, `size`, `data`.  These are the bytes
of a packet that follow its `crc` field, in memory order. -/
def body (pkt : PktSerialPkt) : List Nat := pkt.address :: pkt.size :: pkt.data

/-- The loop `for (i = 0; i < PKT_SERIAL_PACKET_SIZE - 2; i++) pkt->crc += crcPointer[i]`
of `send(uint8_t*, int, uint8_t)`, with `crcPointer = &pkt->address` and a 16-bit `crc`
field.  Bytes past `data` (the zeroed `next` pointer) read as 0. -/
def simpleCrc (c : Config) (pkt : PktSerialPkt) : PktSerialPkt :=
  (List.range (c.PKT_SERIAL_PACKET_SIZE - 2)).foldl
    (fun pkt i => { pkt with crc := (pkt.crc + (body pkt).getD i 0) % 65536 }) pkt

/-- The packet that `send(uint8_t*, int, uint8_t)` allocates and fills in before it
hands it to `send(PktSerialPkt*)`: `malloc`, `memset` to zero, the three header
assignments, the `memcpy` of `len` bytes and the checksum loop. -/
def buildPacket (c : Config) (buf : List Nat) (len : Nat) (address : Nat) : PktSerialPkt :=
  let pkt : PktSerialPkt :=
    { crc := 0, address := 0, size := 0, data := List.replicate c.PKT_SERIAL_DATA_SIZE 0 }
  let pkt := { pkt with crc := 0 }
  let pkt := { pkt with address := address % 256 }
  let pkt := { pkt with size := len % 256 }
  let pkt := { pkt with data := (buf.take len).map (· % 256) ++ pkt.data.drop len }
  simpleCrc c pkt

/-- `PktSerial::send(uint8_t*, int, uint8_t)`; `buf` is `none` for a null pointer and
otherwise the bytes found at `buf`.  The result is `none` when `memcpy` would read past
the end of the caller's buffer. -/
def sendBuf (c : Config) (buf : Option (List Nat)) (len : Int) (address : Nat) (line : Nat)
    (s : PktSerial) : Option (DeviceCode × PktSerial) :=
  match buf with
  | none => some (DEVICE_INVALID_PARAMETER, s)
  | some bytes =>
    if len ≤ 0 ∨ len ≥ (c.PKT_SERIAL_DATA_SIZE : Int) then
      some (DEVICE_INVALID_PARAMETER, s)
    else if bytes.length < len.toNat then none
    else send c (some (buildPacket c bytes len.toNat address)) line s

/-- `PktSerial::isRunning`. -/
def isRunning (c : Config) (s : PktSerial) : Bool :=
  if flagSet s.status c.DEVICE_COMPONENT_RUNNING then true else false

/-- The status word has the Receiving bit set. -/
def receiving (c : Config) (s : PktSerial) : Prop :=
  flagSet s.status c.PKT_SERIAL_RECEIVING = true

/-- The status word has the Transmitting bit set. -/
def transmitting (c : Config) (s : PktSerial) : Prop :=
  flagSet s.status c.PKT_SERIAL_TRANSMITTING = true

instance (c : Config) (s : PktSerial) : Decidable (receiving c s) :=
  inferInstanceAs (Decidable (_ = true))

instance (c : Config) (s : PktSerial) : Decidable (transmitting c s) :=
  inferInstanceAs (Decidable (_ = true))

/-! ## Events driving the object -/

/-- One event in the life of the object: a call of a public member function, one of the
three handlers being run (falling edge, DMA completion, drain event), the periodic
callback, or the serial engine storing received bytes in the buffer it was given.  Each
event carries the values the environment supplies to it. -/
inductive Op where
  | start (fresh : PktSerialPkt) (line : Nat)
  | stop
  | send (pkt : Option PktSerialPkt) (line : Nat)
  | sendBuf (buf : Option (List Nat)) (len : Int) (address : Nat) (line : Nat)
  | sendPacket (line : Nat)
  | onFallingEdge
  | dmaComplete (evt : Nat) (fresh : PktSerialPkt)
  | periodicCallback (baud : Nat)
  | getPacket
  | getPacketAt (address : Nat)
  | dmaStore (bytes : PktSerialPkt)
deriving DecidableEq, Repr

/-- Run one event; `none` when the member function dereferences a null pointer or
reads past the caller's buffer. -/
def step (c : Config) (op : Op) (s : PktSerial) : Option PktSerial :=
  match op with
  | .start fresh line => some (start c fresh line s)
  | .stop => some (stop c s)
  | .send pkt line => (send c pkt line s).map Prod.snd
  | .sendBuf buf len address line => (sendBuf c buf len address line s).map Prod.snd
  | .sendPacket line => some (sendPacket c line s)
  | .onFallingEdge => some (onFallingEdge c s)
  | .dmaComplete evt fresh => dmaComplete c evt fresh s
  | .periodicCallback baud => some (periodicCallback c baud s)
  | .getPacket => some (getPacket s).2
  | .getPacketAt address => some (getPacketAt address s).2
  | .dmaStore bytes => some (if s.rxBuf.isSome then { s with rxBuf := some bytes } else s)

/-- Run a sequence of events from left to right. -/
def run (c : Config) : List Op → PktSerial → Option PktSerial
  | [], s => some s
  | op :: ops, s =>
    match step c op s with
    | none => none
    | some s => run c ops s

/-- States produced from the freshly constructed object by a sequence of events, each
run from its first to its last statement.  A handler that interrupts another member
function in mid-run is not covered: `Reachable` is used to exhibit states the object
does reach, and `sendPacketHead`, `sendPacketTail` and `sendInterrupted` below describe a
run of `sendPacket` that is interrupted by the falling-edge handler. -/
def Reachable (c : Config) (s : PktSerial) : Prop :=
  ∃ ops : List Op, run c ops init = some s

/-- Add the packets of a list to a queue one after the other, collecting the return
codes; `irq` is threaded through the calls. -/
def addAll (c : Config) : List PktSerialPkt → List PktSerialPkt → Bool →
    List DeviceCode × List PktSerialPkt × Bool
  | [], queue, irq => ([], queue, irq)
  | packet :: packets, queue, irq =>
    match addToQueue c queue (some packet) irq with
    | none => ([], queue, irq)
    | some r =>
      let rest := addAll c packets r.queue r.irq
      (r.ret :: rest.1, rest.2)

/-- Call `popQueue` `n` times in a row and collect what it returns. -/
def popN : Nat → List PktSerialPkt → Bool → List (Option PktSerialPkt) × List PktSerialPkt × Bool
  | 0, queue, irq => ([], queue, irq)
  | n + 1, queue, irq =>
    let r := popQueue queue irq
    let rest := popN n r.queue r.irq
    (r.ret :: rest.1, rest.2)

/-- Run `periodicCallback` `n` times in a row with the same reported baud rate. -/
def ticks (c : Config) (baud : Nat) : Nat → PktSerial → PktSerial
  | 0, s => s
  | n + 1, s => ticks c baud n (periodicCallback c baud s)

end PktSerial

/-! ## Checksum named by the specification -/

/-- One step of the bitwise CRC: shift the 16-bit register left by one and, when the bit
shifted out is set, fold in the polynomial 0x1021. -/
def crc16Shift (crc : Nat) : Nat :=
  if crc &&& 0x8000 != 0 then ((crc <<< 1) ^^^ 0x1021) % 65536 else (crc <<< 1) % 65536

/-- Feed one byte, most significant bit first, into the CRC register. -/
def crc16Byte (crc byte : Nat) : Nat :=
  (List.range 8).foldl (fun crc _ => crc16Shift crc) (crc ^^^ ((byte % 256) <<< 8))

/-- CRC-16/CCITT as the specification words it: polynomial 0x1021, initial value
0xFFFF, no final XOR, each byte processed most significant bit first. -/
def specCrc16Ccitt (bytes : List Nat) : Nat :=
  bytes.foldl crc16Byte 0xFFFF

/-! ## Derived notions and concrete inputs -/

/-- The Receiving and the Transmitting bit are not both set. -/
def PktSerial.exclusive (c : Config) (s : PktSerial) : Prop :=
  ¬ (PktSerial.receiving c s ∧ PktSerial.transmitting c s)

/-- The bytes that follow the `crc` field up to and including the last declared payload
byte: `address`, `size` and the first `size` data bytes. -/
def declaredBytes (pkt : PktSerialPkt) : List Nat :=
  pkt.address :: pkt.size :: pkt.data.take pkt.size

/-- Three packets with different addresses and payloads, used to run the queue. -/
def threePackets : List PktSerialPkt :=
  [⟨7, 1, 1, [9]⟩, ⟨0, 2, 0, []⟩, ⟨5, 1, 2, [3, 4]⟩]

/-- Eleven distinct packets, numbered by their address. -/
def elevenPackets : List PktSerialPkt :=
  (List.range 11).map fun i => ⟨0, i, 0, []⟩

/-- A received buffer that no validation could accept: its `size` field (200) exceeds
the 28 data bytes of a packet and its `crc` field matches no checksum of its contents. -/
def corruptPacket : PktSerialPkt := ⟨0xBEEF, 5, 200, List.replicate 28 0⟩

/-- A state with the Receiving bit set whose RX buffer holds `corruptPacket`. -/
def receivingCorrupt : PktSerial :=
  { PktSerial.init with
    status := 0x3002
    rxBuf := some corruptPacket }

/-- A running, idle driver: the state after `start` with the line high. -/
def idleRunning : PktSerial :=
  PktSerial.start sampleConfig ⟨0, 0, 0, []⟩ 1 PktSerial.init

/-- A packet handed to `send`. -/
def outgoing : PktSerialPkt := PktSerial.buildPacket sampleConfig [1, 2, 3] 3 7

/-- The driver is started, a packet is sent (the start pulse is emitted and Transmitting
is set) and a falling edge arrives while the transmission is pending. -/
def edgeDuringSend : List PktSerial.Op :=
  [.start ⟨0, 0, 0, []⟩ 1, .send (some outgoing) 1, .onFallingEdge]

/-- The driver is started, a falling edge puts it into Receiving, and eleven packets are
submitted with `send` while the reception lasts. -/
def sendsDuringReceive : List PktSerial.Op :=
  [.start ⟨0, 0, 0, []⟩ 1, .onFallingEdge] ++ elevenPackets.map (fun p => .send (some p) 1)

/-- A state with the Receiving bit set and one packet already waiting in the TX queue:
the driver was started, saw a falling edge, and was given a packet to send. -/
def receivingOneQueued : PktSerial :=
  ((PktSerial.run sampleConfig
      [.start ⟨0, 0, 0, []⟩ 1, .onFallingEdge, .send (some ⟨7, 1, 1, [9]⟩) 1]
      PktSerial.init).getD PktSerial.init)

/-- The object with its call history forgotten: the members of the class, the interrupt
state and the configuration last requested of the pin and the serial engine.  Two runs
leave the object in the same state when they agree on this. -/
def PktSerial.forgetTrace (s : PktSerial) : PktSerial := { s with trace := [] }

/-- A buffer of 28 bytes, as long as the data area of a packet under `sampleConfig`. -/
def fullPayload : List Nat := List.replicate 28 7

/-- The driver is started with the line high, a falling edge starts a reception and a
packet is submitted while the reception lasts. -/
def receivingWithQueued : PktSerial :=
  ((PktSerial.run sampleConfig
      [.start ⟨0, 0, 0, []⟩ 1, .onFallingEdge, .send (some outgoing) 1]
      PktSerial.init).getD PktSerial.init)

/-- A transmission in progress: the driver was started with the line high and given a
packet, so the start pulse has been emitted and Transmitting is set. -/
def transmittingState : PktSerial :=
  ((PktSerial.run sampleConfig [.start ⟨0, 0, 0, []⟩ 1, .send (some outgoing) 1]
      PktSerial.init).getD PktSerial.init)

/-- Four queued packets; the second and the fourth carry address 2. -/
def mixedQueue : List PktSerialPkt :=
  [⟨0, 1, 0, []⟩, ⟨11, 2, 1, [5]⟩, ⟨0, 3, 0, []⟩, ⟨22, 2, 1, [6]⟩]

/-- The state after `start` on a freshly constructed object while the line reads low;
`malloc` returns a buffer whose contents are `⟨1, 2, 3, [4]⟩`. -/
def startedLow : PktSerial :=
  PktSerial.start sampleConfig ⟨1, 2, 3, [4]⟩ 0 PktSerial.init

/-- The driver is started with the line high, a falling edge starts a reception, and
`stop` is called before the DMA completes. -/
def stopDuringReceive : List PktSerial.Op :=
  [.start ⟨0, 0, 0, []⟩ 1, .onFallingEdge, .stop]

/-- The state reached by `stopDuringReceive`. -/
def stoppedMidReceive : PktSerial :=
  PktSerial.stop sampleConfig
    (PktSerial.onFallingEdge sampleConfig
      (PktSerial.start sampleConfig ⟨0, 0, 0, []⟩ 1 PktSerial.init))

/-- The statements of `sendPacket` from its entry up to and including `configure(true)`
(l.307-331), on the path taken when neither Receiving nor Transmitting is set and the
line reads high.  No interrupt is masked on this path, and its last call arms edge
events. -/
def PktSerial.sendPacketHead (c : Config) (s : PktSerial) : PktSerial :=
  let s := { s with status := setFlag s.status c.PKT_SERIAL_TX_DRAIN_ENABLE }
  let s := PktSerial.call (.getDigitalValue Up) s
  let s := PktSerial.call (.setDigitalValue 1) s
  PktSerial.configure true s

/-- The statements of `sendPacket` that follow `configure(true)` on that path
(l.333-360): the test of `txQueue` with the start pulse, then the code after the block,
which reads `status` again. -/
def PktSerial.sendPacketTail (c : Config) (s : PktSerial) : PktSerial :=
  let block : PktSerial ⊕ PktSerial :=
    if !s.txQueue.isEmpty then
      let s := { s with status := setFlag s.status c.PKT_SERIAL_TRANSMITTING }
      let r := PktSerial.popQueue s.txQueue s.irq
      let s := { s with txBuf := r.ret, txQueue := r.queue, irq := r.irq }
      let s := PktSerial.call (.setDigitalValue 0) s
      let s := PktSerial.call (.waitUs 10) s
      let s := PktSerial.call (.setDigitalValue 1) s
      .inl (PktSerial.call (.eventAfterUs 100 PKT_SERIAL_EVT_DRAIN) s)
    else .inr s
  match block with
  | .inl s => s
  | .inr s =>
    if flagSet s.status c.PKT_SERIAL_TRANSMITTING then
      PktSerial.call (.sendDMA s.txBuf c.PKT_SERIAL_PACKET_SIZE) s
    else
      { s with status := clearFlag s.status c.PKT_SERIAL_TX_DRAIN_ENABLE }

/-- A call of `send(PktSerialPkt*)` on a driver that is neither receiving nor
transmitting nor draining, with the line high, during which the pin's falling-edge
event is delivered right after `configure(true)` of `sendPacket`: `onFallingEdge` is
registered as an immediate listener and runs at that point, then `sendPacket`
resumes. -/
def PktSerial.sendInterrupted (c : Config) (pkt : Option PktSerialPkt) (s : PktSerial) :
    Option (DeviceCode × PktSerial) :=
  match PktSerial.addToQueue c s.txQueue pkt s.irq with
  | none => none
  | some r =>
    let s := { s with txQueue := r.queue, irq := r.irq }
    some (r.ret,
      PktSerial.sendPacketTail c (PktSerial.onFallingEdge c (PktSerial.sendPacketHead c s)))

/-- A running idle driver that holds one received packet in its RX queue and one
submitted packet in its TX queue: it was started with the line high, saw a falling
edge, was given `outgoing` to send during the reception, and the reception of
`⟨16, 9, 1, [6]⟩` then completed. -/
def idleWithQueues : PktSerial :=
  ((PktSerial.run sampleConfig
      [.start ⟨0, 0, 0, []⟩ 1, .onFallingEdge, .send (some outgoing) 1,
       .dmaStore ⟨16, 9, 1, [6]⟩, .dmaComplete SWS_EVT_DATA_RECEIVED ⟨0, 0, 0, []⟩]
      PktSerial.init).getD PktSerial.init)

/-! ## JACDAC packet constants (`JDPhysicalLayer.h`) -/

/-- Size of the transport and logical header of a `JDPacket`. -/
def JD_SERIAL_HEADER_SIZE : Nat := 16

/-- The macro `JD_SERIAL_CRC_HEADER_SIZE`. -/
def JD_SERIAL_CRC_HEADER_SIZE : Nat := 2

/-- Largest payload of a `JDPacket`. -/
def JD_SERIAL_MAX_PAYLOAD_SIZE : Nat := 236

/-- Upper bound, in microseconds, of the transmit back-off. -/
def JD_SERIAL_TX_MAX_BACKOFF : Nat := 1000

/-- The header fields of `struct JDPacket` that precede `data`. -/
inductive JDField where
  | crc
  | version
  | serial_flags
  | device_identifier
  | size
  | service_number
  | service_command
  | service_flags
deriving DecidableEq, Repr

/-- The header fields in declaration order. -/
def JDField.declared : List JDField :=
  [.crc, .version, .serial_flags, .device_identifier, .size, .service_number,
   .service_command, .service_flags]

/-- Width in bytes of a header field, from its declared type (`uint16_t`, `uint8_t`,
`uint64_t`). -/
def JDField.width : JDField → Nat
  | .crc => 2
  | .version => 1
  | .serial_flags => 1
  | .device_identifier => 8
  | .size => 1
  | .service_number => 1
  | .service_command => 1
  | .service_flags => 1

/-- Byte offset of a field in the packed struct: the widths of the fields declared
before it, added up. -/
def JDField.offset (f : JDField) : Nat :=
  ((JDField.declared.takeWhile (fun g => g != f)).map JDField.width).sum

/-- Byte offset of `data`, which follows the last header field. -/
def JDField.dataOffset : Nat := (JDField.declared.map JDField.width).sum

/-! ## Display -/

/-- The members of a `Display` that `Display.cpp` reads and writes outside the image:
`width`, `height` and `brightness`. -/
structure Display where
  width : Int
  height : Int
  brightness : Int
deriving DecidableEq, Repr

namespace Display

/-- `Display::getWidth`. -/
def getWidth (d : Display) : Int := d.width

/-- `Display::getHeight`. -/
def getHeight (d : Display) : Int := d.height

/-- `Display::setBrightness`. -/
def setBrightness (b : Int) (d : Display) : DeviceCode × Display :=
  if b < 0 ∨ b > 255 then (DEVICE_INVALID_PARAMETER, d)
  else (DEVICE_OK, { d with brightness := b })

/-- `Display::getBrightness`. -/
def getBrightness (d : Display) : Int := d.brightness

end Display

/-- A 5 x 5 display at brightness 100. -/
def sampleDisplay : Display := { width := 5, height := 5, brightness := 100 }

/-! ## Facts about the status-word operations -/

theorem and_eq_zero_iff_testBit (a b : Nat) :
    a &&& b = 0 ↔ ∀ i, ¬ (a.testBit i = true ∧ b.testBit i = true) := by
  constructor
  · intro h i hi
    have := congrArg (fun n => n.testBit i) h
    simp [hi.1, hi.2] at this
  · intro h
    apply Nat.eq_of_testBit_eq
    intro i
    have := h i
    simp only [Nat.testBit_and, Nat.zero_testBit]
    cases ha : a.testBit i <;> cases hb : b.testBit i <;> simp_all

theorem setFlag_and_self (s m : Nat) : setFlag s m &&& m = m := by
  apply Nat.eq_of_testBit_eq
  intro i
  simp only [setFlag, Nat.testBit_and, Nat.testBit_or]
  cases s.testBit i <;> cases m.testBit i <;> rfl

theorem setFlag_and_of_disjoint (s a b : Nat) (h : a &&& b = 0) :
    setFlag s a &&& b = s &&& b := by
  rw [and_eq_zero_iff_testBit] at h
  apply Nat.eq_of_testBit_eq
  intro i
  have := h i
  simp only [setFlag, Nat.testBit_and, Nat.testBit_or]
  cases s.testBit i <;> cases ha : a.testBit i <;> cases hb : b.testBit i <;> simp_all

theorem clearFlag_and_self (s m : Nat) : clearFlag s m &&& m = 0 := by
  apply Nat.eq_of_testBit_eq
  intro i
  simp only [clearFlag, Nat.testBit_and, Nat.testBit_xor, Nat.zero_testBit]
  cases s.testBit i <;> cases m.testBit i <;> rfl

theorem clearFlag_and_of_disjoint (s a b : Nat) (h : a &&& b = 0) :
    clearFlag s a &&& b = s &&& b := by
  rw [and_eq_zero_iff_testBit] at h
  apply Nat.eq_of_testBit_eq
  intro i
  have := h i
  simp only [clearFlag, Nat.testBit_and, Nat.testBit_xor]
  cases s.testBit i <;> cases ha : a.testBit i <;> cases hb : b.testBit i <;> simp_all

theorem clearFlag_and_eq_zero (s a b : Nat) (h : s &&& b = 0) : clearFlag s a &&& b = 0 := by
  rw [and_eq_zero_iff_testBit] at h ⊢
  intro i hi
  apply h i
  simp only [clearFlag, Nat.testBit_and, Nat.testBit_xor] at hi
  revert hi
  cases s.testBit i <;> cases a.testBit i <;> cases b.testBit i <;> simp

theorem and_or_eq_zero_iff (s a b : Nat) : s &&& (a ||| b) = 0 ↔ s &&& a = 0 ∧ s &&& b = 0 := by
  simp only [and_eq_zero_iff_testBit, Nat.testBit_or]
  constructor
  · intro h
    constructor <;> intro i hi <;> apply h i <;> simp [hi.1, hi.2]
  · intro h i hi
    rcases hi with ⟨hs, hab⟩
    rcases Bool.or_eq_true _ _ ▸ hab with ha | hb
    · exact h.1 i ⟨hs, ha⟩
    · exact h.2 i ⟨hs, hb⟩

theorem flagSet_eq_true (s m : Nat) : flagSet s m = true ↔ s &&& m ≠ 0 := by
  simp [flagSet]

theorem flagSet_eq_false (s m : Nat) : flagSet s m = false ↔ s &&& m = 0 := by
  simp [flagSet]

theorem flagSet_setFlag_self (s m : Nat) (hm : m ≠ 0) : flagSet (setFlag s m) m = true := by
  rw [flagSet_eq_true, setFlag_and_self]; exact hm

theorem flagSet_setFlag_of_disjoint (s a b : Nat) (h : a &&& b = 0) :
    flagSet (setFlag s a) b = flagSet s b := by
  simp only [flagSet, setFlag_and_of_disjoint s a b h]

theorem flagSet_clearFlag_self (s m : Nat) : flagSet (clearFlag s m) m = false := by
  rw [flagSet_eq_false, clearFlag_and_self]

theorem flagSet_clearFlag_of_disjoint (s a b : Nat) (h : a &&& b = 0) :
    flagSet (clearFlag s a) b = flagSet s b := by
  simp only [flagSet, clearFlag_and_of_disjoint s a b h]

theorem flagSet_clearFlag_of_false (s a b : Nat) (h : flagSet s b = false) :
    flagSet (clearFlag s a) b = false := by
  rw [flagSet_eq_false] at h ⊢
  exact clearFlag_and_eq_zero s a b h

theorem flagSet_or (s a b : Nat) : flagSet s (a ||| b) = (flagSet s a || flagSet s b) := by
  have h := and_or_eq_zero_iff s a b
  cases hab : flagSet s (a ||| b) <;> cases ha : flagSet s a <;> cases hb : flagSet s b <;>
    simp_all [flagSet]

theorem flagSet_zero (m : Nat) : flagSet 0 m = false := by
  simp [flagSet]

/-! ## Queues -/

namespace PktSerial

theorem walkToTail_eq (rest : List PktSerialPkt) (d : Nat) :
    walkToTail rest d = d + rest.length := by
  induction rest generalizing d with
  | nil => simp [walkToTail]
  | cons p rest ih => simp [walkToTail, ih]; omega

theorem linkAtTail_eq (packet : PktSerialPkt) (rest : List PktSerialPkt) :
    linkAtTail packet rest = rest ++ [packet] := by
  induction rest with
  | nil => rfl
  | cons p rest ih => simp [linkAtTail, ih]

/-- What `addToQueue` does with a non-null packet, in terms of the queue as a list: a
queue of at most `PKT_SERIAL_MAXIMUM_BUFFERS` packets gets the packet appended, a longer
one is left alone and interrupts stay disabled. -/
theorem addToQueue_some (c : Config) (queue : List PktSerialPkt) (packet : PktSerialPkt)
    (irq : Bool) :
    addToQueue c queue (some packet) irq =
      if queue.length ≤ c.PKT_SERIAL_MAXIMUM_BUFFERS then
        some { ret := DEVICE_OK, queue := queue ++ [packet], irq := true }
      else some { ret := DEVICE_NO_RESOURCES, queue := queue, irq := false } := by
  cases queue with
  | nil => simp [addToQueue]
  | cons p rest =>
    simp only [addToQueue, walkToTail_eq, linkAtTail_eq, List.length_cons, Nat.zero_add]
    by_cases h : rest.length ≥ c.PKT_SERIAL_MAXIMUM_BUFFERS
    · have h2 : ¬ rest.length + 1 ≤ c.PKT_SERIAL_MAXIMUM_BUFFERS := by omega
      simp [h, h2]
    · have h2 : rest.length + 1 ≤ c.PKT_SERIAL_MAXIMUM_BUFFERS := by omega
      simp [h, h2]

theorem addAll_accepted (c : Config) (packets queue : List PktSerialPkt) (irq : Bool)
    (h : (addAll c packets queue irq).1 = List.replicate packets.length DEVICE_OK) :
    (addAll c packets queue irq).2.1 = queue ++ packets := by
  induction packets generalizing queue irq with
  | nil => simp [addAll]
  | cons p ps ih =>
    simp only [addAll, addToQueue_some] at h ⊢
    by_cases hq : queue.length ≤ c.PKT_SERIAL_MAXIMUM_BUFFERS
    · simp only [hq, if_true, List.length_cons, List.replicate_succ, List.cons.injEq,
        true_and] at h ⊢
      rw [ih _ _ h]
      simp
    · simp [hq, List.replicate_succ] at h

theorem popN_all (queue : List PktSerialPkt) (irq : Bool) :
    (popN (queue.length + 1) queue irq).1 = queue.map some ++ [none] := by
  induction queue generalizing irq with
  | nil => simp [popN, popQueue]
  | cons p ps ih =>
    rw [show (p :: ps).length + 1 = (ps.length + 1) + 1 from rfl, popN]
    simp only [popQueue]
    rw [ih]
    simp

end PktSerial

/-- C3. Queues are first-in first-out: when every packet of a list is accepted by
`addToQueue` (each call returns `DEVICE_OK`), starting from the empty queue and with no
removal in between, then popping the queue once per packet and once more returns the
packets in the order they were added, followed by NULL. -/
theorem queue_fifo (c : Config) (packets : List PktSerialPkt) (irq : Bool)
    (accepted : (PktSerial.addAll c packets [] irq).1
                  = List.replicate packets.length DEVICE_OK) :
    (PktSerial.popN (packets.length + 1) (PktSerial.addAll c packets [] irq).2.1
        (PktSerial.addAll c packets [] irq).2.2).1
      = packets.map some ++ [none] := by
  have h := PktSerial.addAll_accepted c packets [] irq accepted
  rw [h, List.nil_append]
  exact PktSerial.popN_all packets _

/-- C3 at three concrete packets: all three are accepted and four pops return them in
order and then NULL. -/
theorem queue_fifo_witness :
    (PktSerial.addAll sampleConfig threePackets [] true).1
        = List.replicate threePackets.length DEVICE_OK ∧
    (PktSerial.popN (threePackets.length + 1)
        (PktSerial.addAll sampleConfig threePackets [] true).2.1
        (PktSerial.addAll sampleConfig threePackets [] true).2.2).1
      = threePackets.map some ++ [none] :=
  ⟨by decide, queue_fifo sampleConfig threePackets true (by decide)⟩

/-- C4. With a capacity `PKT_SERIAL_MAXIMUM_BUFFERS` of 10, eleven packets added to an
empty queue with no consumer are all accepted: every call returns `DEVICE_OK` and the
queue ends up holding eleven packets, one more than the capacity. -/
theorem addToQueue_exceeds_capacity :
    sampleConfig.PKT_SERIAL_MAXIMUM_BUFFERS = 10 ∧
    (PktSerial.addAll sampleConfig elevenPackets [] true).1 = List.replicate 11 DEVICE_OK ∧
    (PktSerial.addAll sampleConfig elevenPackets [] true).2.1 = elevenPackets ∧
    (PktSerial.addAll sampleConfig elevenPackets [] true).2.1.length = 11 := by
  decide

/-- C5. Enqueue is atomic on failure: whenever `addToQueue` returns
`DEVICE_NO_RESOURCES`, the queue afterwards is the queue before the call, the same
packets in the same order. -/
theorem addToQueue_no_resources_unchanged (c : Config) (queue : List PktSerialPkt)
    (packet : Option PktSerialPkt) (irq : Bool) (r : QueueResult DeviceCode)
    (hr : PktSerial.addToQueue c queue packet irq = some r)
    (hret : r.ret = DEVICE_NO_RESOURCES) :
    r.queue = queue := by
  cases packet with
  | none => simp [PktSerial.addToQueue] at hr
  | some p =>
    rw [PktSerial.addToQueue_some] at hr
    by_cases hq : queue.length ≤ c.PKT_SERIAL_MAXIMUM_BUFFERS
    · simp only [hq, if_true, Option.some.injEq] at hr
      subst hr
      cases hret
    · simp only [hq, if_false, Option.some.injEq] at hr
      subst hr
      rfl

/-- C5 at a full queue: adding a twelfth packet to a queue of eleven returns
`DEVICE_NO_RESOURCES` and leaves the eleven packets as they were. -/
theorem addToQueue_no_resources_unchanged_witness :
    PktSerial.addToQueue sampleConfig elevenPackets (some ⟨1, 99, 0, []⟩) true
        = some { ret := DEVICE_NO_RESOURCES, queue := elevenPackets, irq := false } ∧
    (QueueResult.mk DEVICE_NO_RESOURCES elevenPackets false).queue = elevenPackets :=
  ⟨by decide,
   addToQueue_no_resources_unchanged sampleConfig elevenPackets (some ⟨1, 99, 0, []⟩) true
     { ret := DEVICE_NO_RESOURCES, queue := elevenPackets, irq := false } (by decide) rfl⟩

/-! ## Reception -/

/-- What `dmaComplete` does on a `SWS_EVT_DATA_RECEIVED` completion when `rxBuf` is not
null: the Receiving bit is cleared, the buffer goes through `addToQueue` unexamined, a
fresh buffer becomes `rxBuf`, `PKT_SERIAL_EVT_DATA_READY` is raised and the line is put
back to idle. -/
theorem PktSerial.dmaComplete_received (c : Config) (fresh p : PktSerialPkt) (s : PktSerial)
    (hbuf : s.rxBuf = some p) :
    PktSerial.dmaComplete c SWS_EVT_DATA_RECEIVED fresh s =
      some (PktSerial.configure true (PktSerial.call (.setDigitalValue 1)
        (PktSerial.call (.setMode SingleWireDisconnected)
          (PktSerial.call (.fire PKT_SERIAL_EVT_DATA_READY)
            { s with
              status := clearFlag s.status c.PKT_SERIAL_RECEIVING
              rxQueue := if s.rxQueue.length ≤ c.PKT_SERIAL_MAXIMUM_BUFFERS
                          then s.rxQueue ++ [p] else s.rxQueue
              irq := decide (s.rxQueue.length ≤ c.PKT_SERIAL_MAXIMUM_BUFFERS)
              rxBuf := some fresh })))) := by
  simp only [PktSerial.dmaComplete, hbuf, PktSerial.addToQueue_some, SWS_EVT_DATA_RECEIVED,
    SWS_EVT_ERROR, SWS_EVT_DATA_SENT]
  by_cases hq : s.rxQueue.length ≤ c.PKT_SERIAL_MAXIMUM_BUFFERS <;> simp [hq]

/-- C1, refuted as stated. The driver is started, sees a falling edge, the serial engine
stores `corruptPacket` in the RX buffer and reports `SWS_EVT_DATA_RECEIVED`.  The packet
declares more payload than a packet can hold and its `crc` equals neither the additive
checksum written by `send` nor CRC-16/CCITT of its bytes, yet `getPacket` returns it. -/
theorem dmaComplete_enqueues_invalid_packet :
    sampleConfig.PKT_SERIAL_DATA_SIZE < corruptPacket.size ∧
    corruptPacket.crc ≠ (PktSerial.simpleCrc sampleConfig { corruptPacket with crc := 0 }).crc ∧
    corruptPacket.crc ≠ specCrc16Ccitt (declaredBytes corruptPacket) ∧
    corruptPacket.crc ≠ specCrc16Ccitt (PktSerial.body corruptPacket) ∧
    (PktSerial.run sampleConfig
        [.start ⟨0, 0, 0, []⟩ 1, .onFallingEdge, .dmaStore corruptPacket,
         .dmaComplete SWS_EVT_DATA_RECEIVED ⟨0, 0, 0, []⟩] PktSerial.init).map
      (fun s => (PktSerial.getPacket s).1) = some (some corruptPacket) := by
  refine ⟨by decide, by decide, by decide!, by decide!, by decide⟩

/-- C1, amended. `dmaComplete` does not validate: on every `SWS_EVT_DATA_RECEIVED`
completion with a non-null `rxBuf` it returns, having handed the current RX buffer to
`addToQueue` whatever its `size` and `crc` fields are.  The return code of `addToQueue`
is the one any other buffer would have got; on `DEVICE_OK` the buffer is at the tail of
the RX queue, on `DEVICE_NO_RESOURCES` (queue full) it is dropped and the RX queue is
unchanged.  `getPacket` then returns the head of the RX queue. -/
theorem dmaComplete_received_enqueues_unchecked (c : Config) (fresh p : PktSerialPkt)
    (s : PktSerial) (hbuf : s.rxBuf = some p) :
    ∃ t r, PktSerial.dmaComplete c SWS_EVT_DATA_RECEIVED fresh s = some t ∧
      PktSerial.addToQueue c s.rxQueue (some p) s.irq = some r ∧
      (∀ q : PktSerialPkt,
        (PktSerial.addToQueue c s.rxQueue (some q) s.irq).map (fun x => x.ret) = some r.ret) ∧
      t.rxQueue = r.queue ∧
      ((r.ret = DEVICE_OK ∧ r.queue = s.rxQueue ++ [p]) ∨
        (r.ret = DEVICE_NO_RESOURCES ∧ r.queue = s.rxQueue)) ∧
      (PktSerial.getPacket t).1 = t.rxQueue.head? := by
  have hdma := PktSerial.dmaComplete_received c fresh p s hbuf
  have hget : ∀ t : PktSerial, (PktSerial.getPacket t).1 = t.rxQueue.head? := by
    intro t
    simp only [PktSerial.getPacket, PktSerial.popQueue]
    split <;> simp_all
  by_cases hq : s.rxQueue.length ≤ c.PKT_SERIAL_MAXIMUM_BUFFERS
  · refine ⟨_, { ret := DEVICE_OK, queue := s.rxQueue ++ [p], irq := true }, hdma, ?_, ?_, ?_,
      Or.inl ⟨rfl, rfl⟩, hget _⟩
    · rw [PktSerial.addToQueue_some]; simp [hq]
    · intro q; rw [PktSerial.addToQueue_some]; simp [hq]
    · simp [hq, PktSerial.configure, PktSerial.call]
  · refine ⟨_, { ret := DEVICE_NO_RESOURCES, queue := s.rxQueue, irq := false }, hdma, ?_, ?_,
      ?_, Or.inr ⟨rfl, rfl⟩, hget _⟩
    · rw [PktSerial.addToQueue_some]; simp [hq]
    · intro q; rw [PktSerial.addToQueue_some]; simp [hq]
    · simp [hq, PktSerial.configure, PktSerial.call]

/-- C1, amended, at `receivingCorrupt`: the corrupt buffer is accepted like any other,
is appended to the empty RX queue and is what `getPacket` returns next. -/
theorem dmaComplete_received_enqueues_unchecked_witness :
    receivingCorrupt.rxBuf = some corruptPacket ∧
    (PktSerial.dmaComplete sampleConfig SWS_EVT_DATA_RECEIVED ⟨0, 0, 0, []⟩
        receivingCorrupt).map (fun t => (PktSerial.getPacket t).1) = some (some corruptPacket) ∧
    ∃ t r, PktSerial.dmaComplete sampleConfig SWS_EVT_DATA_RECEIVED ⟨0, 0, 0, []⟩
          receivingCorrupt = some t ∧
      PktSerial.addToQueue sampleConfig receivingCorrupt.rxQueue (some corruptPacket)
          receivingCorrupt.irq = some r ∧
      (∀ q : PktSerialPkt,
        (PktSerial.addToQueue sampleConfig receivingCorrupt.rxQueue (some q)
          receivingCorrupt.irq).map (fun x => x.ret) = some r.ret) ∧
      t.rxQueue = r.queue ∧
      ((r.ret = DEVICE_OK ∧ r.queue = receivingCorrupt.rxQueue ++ [corruptPacket]) ∨
        (r.ret = DEVICE_NO_RESOURCES ∧ r.queue = receivingCorrupt.rxQueue)) ∧
      (PktSerial.getPacket t).1 = t.rxQueue.head? :=
  ⟨rfl, by decide,
   dmaComplete_received_enqueues_unchecked sampleConfig ⟨0, 0, 0, []⟩ corruptPacket
    receivingCorrupt rfl⟩

/-! ## Checksum written by `send` -/

namespace PktSerial

theorem sum_take_succ (l : List Nat) (n : Nat) :
    (l.take (n + 1)).sum = (l.take n).sum + l.getD n 0 := by
  induction l generalizing n with
  | nil => simp
  | cons a l ih =>
    cases n with
    | zero => simp
    | succ n =>
      simp only [List.take_succ_cons, List.sum_cons, ih n, List.getD_cons_succ]
      omega

theorem crcLoop_eq (pkt : PktSerialPkt) (n : Nat) (hcrc : pkt.crc < 65536) :
    (List.range n).foldl
        (fun pkt i => { pkt with crc := (pkt.crc + (body pkt).getD i 0) % 65536 }) pkt
      = { pkt with crc := (pkt.crc + ((body pkt).take n).sum) % 65536 } := by
  induction n with
  | zero =>
    simp only [List.range_zero, List.foldl_nil, List.take_zero, List.sum_nil, Nat.add_zero]
    rw [Nat.mod_eq_of_lt hcrc]
  | succ n ih =>
    rw [List.range_succ, List.foldl_append, ih]
    simp only [List.foldl_cons, List.foldl_nil, body, sum_take_succ]
    congr 1
    omega

end PktSerial

/-- C2, refuted as stated. `send` is given the one-byte buffer `[1]` for address 0 on a
freshly constructed object with the line high.  The packet it builds is transmitted
next (it becomes `txBuf`); its `crc` field is 2, whereas CRC-16/CCITT of the bytes that
follow the `crc` field up to the last declared payload byte is 61324. -/
theorem send_crc_is_not_ccitt :
    (PktSerial.sendBuf sampleConfig (some [1]) 1 0 1 PktSerial.init).map (fun r => r.2.txBuf)
        = some (some (PktSerial.buildPacket sampleConfig [1] 1 0)) ∧
    (PktSerial.buildPacket sampleConfig [1] 1 0).crc = 2 ∧
    declaredBytes (PktSerial.buildPacket sampleConfig [1] 1 0) = [0, 1, 1] ∧
    specCrc16Ccitt (declaredBytes (PktSerial.buildPacket sampleConfig [1] 1 0)) = 61324 := by
  refine ⟨by decide, by decide, by decide, by decide!⟩

/-- C2, amended. For every non-null buffer holding at least `len` bytes and every
accepted length (`0 < len < PKT_SERIAL_DATA_SIZE`), `send(buf, len, address)` builds a
packet and passes it to `send(pkt)`; the `crc` field of that packet is the simple
additive checksum: the sum, modulo 2^16, of the `PKT_SERIAL_PACKET_SIZE - 2` bytes that
follow the `crc` field (address, size, payload and zero padding). -/
theorem send_crc_is_additive (c : Config) (bytes : List Nat) (len : Int) (address line : Nat)
    (s : PktSerial) (hpos : 0 < len) (hmax : len < (c.PKT_SERIAL_DATA_SIZE : Int))
    (hbuf : len.toNat ≤ bytes.length) :
    PktSerial.sendBuf c (some bytes) len address line s
        = PktSerial.send c (some (PktSerial.buildPacket c bytes len.toNat address)) line s ∧
    (PktSerial.buildPacket c bytes len.toNat address).crc
        = ((PktSerial.body (PktSerial.buildPacket c bytes len.toNat address)).take
            (c.PKT_SERIAL_PACKET_SIZE - 2)).sum % 65536 := by
  constructor
  · have h1 : ¬ (len ≤ 0 ∨ len ≥ (c.PKT_SERIAL_DATA_SIZE : Int)) := by omega
    have h2 : ¬ bytes.length < len.toNat := by omega
    simp only [PktSerial.sendBuf, h1, h2, if_false]
  · simp only [PktSerial.buildPacket, PktSerial.simpleCrc]
    rw [PktSerial.crcLoop_eq _ _ (by simp)]
    simp [PktSerial.body]

/-- C2, amended, at the buffer `[1, 2, 3]` sent to address 7: the checksum is
7 + 3 + 1 + 2 + 3 = 16. -/
theorem send_crc_is_additive_witness :
    (PktSerial.buildPacket sampleConfig [1, 2, 3] 3 7).crc = 16 ∧
    (PktSerial.sendBuf sampleConfig (some [1, 2, 3]) 3 7 1 PktSerial.init
        = PktSerial.send sampleConfig
            (some (PktSerial.buildPacket sampleConfig [1, 2, 3] (3 : Int).toNat 7)) 1
            PktSerial.init ∧
      (PktSerial.buildPacket sampleConfig [1, 2, 3] (3 : Int).toNat 7).crc
        = ((PktSerial.body (PktSerial.buildPacket sampleConfig [1, 2, 3] (3 : Int).toNat 7)).take
            (sampleConfig.PKT_SERIAL_PACKET_SIZE - 2)).sum % 65536) :=
  ⟨by decide,
   send_crc_is_additive sampleConfig [1, 2, 3] 3 7 1 PktSerial.init (by decide) (by decide)
     (by decide)⟩

/-! ## Falling edge -/

namespace PktSerial

@[simp] theorem call_status (h : HwCall) (s : PktSerial) : (call h s).status = s.status := by
  cases h <;> rfl

@[simp] theorem call_txQueue (h : HwCall) (s : PktSerial) : (call h s).txQueue = s.txQueue := by
  cases h <;> rfl

@[simp] theorem call_rxQueue (h : HwCall) (s : PktSerial) : (call h s).rxQueue = s.rxQueue := by
  cases h <;> rfl

@[simp] theorem call_txBuf (h : HwCall) (s : PktSerial) : (call h s).txBuf = s.txBuf := by
  cases h <;> rfl

@[simp] theorem call_rxBuf (h : HwCall) (s : PktSerial) : (call h s).rxBuf = s.rxBuf := by
  cases h <;> rfl

@[simp] theorem call_trace (h : HwCall) (s : PktSerial) : (call h s).trace = s.trace ++ [h] := by
  cases h <;> rfl

@[simp] theorem configure_status (events : Bool) (s : PktSerial) :
    (configure events s).status = s.status := by
  cases events <;> simp [configure]

@[simp] theorem configure_txQueue (events : Bool) (s : PktSerial) :
    (configure events s).txQueue = s.txQueue := by
  cases events <;> simp [configure]

@[simp] theorem configure_rxQueue (events : Bool) (s : PktSerial) :
    (configure events s).rxQueue = s.rxQueue := by
  cases events <;> simp [configure]

@[simp] theorem configure_txBuf (events : Bool) (s : PktSerial) :
    (configure events s).txBuf = s.txBuf := by
  cases events <;> simp [configure]

@[simp] theorem configure_rxBuf (events : Bool) (s : PktSerial) :
    (configure events s).rxBuf = s.rxBuf := by
  cases events <;> simp [configure]

/-- The guard of `onFallingEdge` lets the event through exactly when the driver is
running and neither Receiving nor Transmitting is set. -/
theorem onFallingEdge_guard (c : Config) (s : PktSerial) :
    (flagSet s.status (c.PKT_SERIAL_RECEIVING ||| c.PKT_SERIAL_TRANSMITTING)
        || !flagSet s.status c.DEVICE_COMPONENT_RUNNING) = false
      ↔ isRunning c s = true ∧ ¬ receiving c s ∧ ¬ transmitting c s := by
  simp only [flagSet_or, isRunning, receiving, transmitting]
  cases flagSet s.status c.PKT_SERIAL_RECEIVING <;>
    cases flagSet s.status c.PKT_SERIAL_TRANSMITTING <;>
    cases flagSet s.status c.DEVICE_COMPONENT_RUNNING <;> simp

end PktSerial

/-- C8. `onFallingEdge` enters Receiving if and only if the driver is running and
neither Receiving nor Transmitting is set.  In that case it disables edge events, reads
the pin without pull, resets the timeout counter to 0, sets the Receiving bit and starts
exactly one DMA receive into the current RX buffer for `PKT_SERIAL_PACKET_SIZE` bytes,
and issues nothing else.  In every other state the object is left exactly as it was, so
no pin or DMA operation is issued. -/
theorem onFallingEdge_enters_receiving_iff (c : Config) (hR : c.PKT_SERIAL_RECEIVING ≠ 0)
    (s : PktSerial) :
    (PktSerial.isRunning c s = true ∧ ¬ PktSerial.receiving c s ∧ ¬ PktSerial.transmitting c s →
      PktSerial.onFallingEdge c s =
        { s with
          status := setFlag s.status c.PKT_SERIAL_RECEIVING
          timeoutCounter := 0
          pin := .input PullMode.None
          pinEvent := DEVICE_PIN_EVENT_NONE
          trace := s.trace ++ [.eventOn DEVICE_PIN_EVENT_NONE, .getDigitalValue PullMode.None,
                               .receiveDMA s.rxBuf c.PKT_SERIAL_PACKET_SIZE] } ∧
      PktSerial.receiving c (PktSerial.onFallingEdge c s)) ∧
    (¬ (PktSerial.isRunning c s = true ∧ ¬ PktSerial.receiving c s ∧
          ¬ PktSerial.transmitting c s) →
      PktSerial.onFallingEdge c s = s) := by
  constructor
  · intro h
    have hg := (PktSerial.onFallingEdge_guard c s).mpr h
    have heq : PktSerial.onFallingEdge c s =
        { s with
          status := setFlag s.status c.PKT_SERIAL_RECEIVING
          timeoutCounter := 0
          pin := .input PullMode.None
          pinEvent := DEVICE_PIN_EVENT_NONE
          trace := s.trace ++ [.eventOn DEVICE_PIN_EVENT_NONE, .getDigitalValue PullMode.None,
                               .receiveDMA s.rxBuf c.PKT_SERIAL_PACKET_SIZE] } := by
      simp [PktSerial.onFallingEdge, hg, PktSerial.call]
    refine ⟨heq, ?_⟩
    rw [heq]
    exact flagSet_setFlag_self _ _ hR
  · intro h
    have hg : (flagSet s.status (c.PKT_SERIAL_RECEIVING ||| c.PKT_SERIAL_TRANSMITTING)
        || !flagSet s.status c.DEVICE_COMPONENT_RUNNING) = true := by
      rw [← Bool.not_eq_false]
      exact fun hf => h ((PktSerial.onFallingEdge_guard c s).mp hf)
    simp [PktSerial.onFallingEdge, hg]

/-- C8 at the idle running driver: the event is let through, and the resulting state
has the Receiving bit set. -/
theorem onFallingEdge_enters_receiving_iff_witness :
    sampleConfig.PKT_SERIAL_RECEIVING ≠ 0 ∧
    (PktSerial.isRunning sampleConfig idleRunning = true ∧
      ¬ PktSerial.receiving sampleConfig idleRunning ∧
      ¬ PktSerial.transmitting sampleConfig idleRunning) ∧
    PktSerial.receiving sampleConfig (PktSerial.onFallingEdge sampleConfig idleRunning) :=
  ⟨by decide, by decide,
   ((onFallingEdge_enters_receiving_iff sampleConfig (by decide) idleRunning).1
      (by decide)).2⟩

/-! ## Receiving and Transmitting exclude each other -/

namespace PktSerial

theorem flagSet_clearFlag_imp (st a b : Nat) (h : flagSet (clearFlag st a) b = true) :
    flagSet st b = true := by
  cases hb : flagSet st b
  · rw [flagSet_clearFlag_of_false st a b hb] at h; exact h
  · rfl

theorem exclusive_of_flags (c : Config) (s t : PktSerial)
    (hr : flagSet t.status c.PKT_SERIAL_RECEIVING = true →
            flagSet s.status c.PKT_SERIAL_RECEIVING = true)
    (ht : flagSet t.status c.PKT_SERIAL_TRANSMITTING = true →
            flagSet s.status c.PKT_SERIAL_TRANSMITTING = true)
    (h : exclusive c s) : exclusive c t :=
  fun ⟨a, b⟩ => h ⟨hr a, ht b⟩

theorem exclusive_of_not_receiving (c : Config) (t : PktSerial)
    (h : flagSet t.status c.PKT_SERIAL_RECEIVING = false) : exclusive c t := by
  intro ⟨a, _⟩
  simp [receiving, h] at a

theorem exclusive_of_not_transmitting (c : Config) (t : PktSerial)
    (h : flagSet t.status c.PKT_SERIAL_TRANSMITTING = false) : exclusive c t := by
  intro ⟨_, b⟩
  simp [transmitting, h] at b

theorem onFallingEdge_transmitting (c : Config) (hc : c.FlagsDistinct) (s : PktSerial) :
    flagSet (onFallingEdge c s).status c.PKT_SERIAL_TRANSMITTING
      = flagSet s.status c.PKT_SERIAL_TRANSMITTING := by
  obtain ⟨_, _, _, hRT, _, _, _, _⟩ := hc
  unfold onFallingEdge
  split
  · rfl
  · simp [flagSet_setFlag_of_disjoint _ _ _ hRT]

theorem onFallingEdge_exclusive (c : Config) (hc : c.FlagsDistinct) (s : PktSerial)
    (h : exclusive c s) : exclusive c (onFallingEdge c s) := by
  by_cases hg : (flagSet s.status (c.PKT_SERIAL_RECEIVING ||| c.PKT_SERIAL_TRANSMITTING)
        || !flagSet s.status c.DEVICE_COMPONENT_RUNNING) = true
  · have : onFallingEdge c s = s := by simp [onFallingEdge, hg]
    rw [this]; exact h
  · apply exclusive_of_not_transmitting
    rw [onFallingEdge_transmitting c hc]
    rw [Bool.not_eq_true, Bool.or_eq_false_iff, flagSet_or, Bool.or_eq_false_iff] at hg
    exact hg.1.2

theorem start_exclusive (c : Config) (hc : c.FlagsDistinct) (fresh : PktSerialPkt)
    (line : Nat) (s : PktSerial) : exclusive c (start c fresh line s) := by
  have hT := hc.2.2.2.2.2.2.2
  apply exclusive_of_not_transmitting
  unfold start
  simp only [call_status]
  split
  · rw [onFallingEdge_transmitting c hc]
    simp [setFlag, flagSet, hT]
  · simp [setFlag, flagSet, hT]

theorem stop_exclusive (c : Config) (s : PktSerial) (h : exclusive c s) :
    exclusive c (stop c s) := by
  apply exclusive_of_flags c s _ _ _ h <;>
  · unfold stop
    simp only [configure_status]
    split <;> exact flagSet_clearFlag_imp _ _ _

theorem exclusive_congr (c : Config) (s t : PktSerial) (h : t.status = s.status) :
    exclusive c t ↔ exclusive c s := by
  simp only [exclusive, receiving, transmitting, h]

theorem sendPacket_exclusive (c : Config) (hc : c.FlagsDistinct) (line : Nat) (s : PktSerial)
    (h : exclusive c s) : exclusive c (sendPacket c line s) := by
  obtain ⟨hR, hT, hD, hRT, hDR, hDT, hKR, hKT⟩ := hc
  have hTR : c.PKT_SERIAL_TRANSMITTING &&& c.PKT_SERIAL_RECEIVING = 0 := by
    rw [Nat.land_comm]; exact hRT
  have hr := flagSet_setFlag_of_disjoint s.status _ _ hDR
  have ht := flagSet_setFlag_of_disjoint s.status _ _ hDT
  unfold sendPacket
  simp only [hr, ht]
  cases hrs : flagSet s.status c.PKT_SERIAL_RECEIVING
  · -- not receiving on entry
    cases hts : flagSet s.status c.PKT_SERIAL_TRANSMITTING
    · simp only [Bool.not_false, if_true, Bool.false_eq_true, if_false]
      by_cases hl : line = 0
      · simp only [hl, if_true]
        rw [exclusive_congr c _ _ (call_status _ _)]
        apply onFallingEdge_exclusive c ⟨hR, hT, hD, hRT, hDR, hDT, hKR, hKT⟩
        apply exclusive_of_not_receiving
        simp [hr, hrs]
      · simp only [hl, if_false]
        cases hq : s.txQueue.isEmpty
        · simp only [call_txQueue, configure_txQueue, hq, Bool.not_false, if_true]
          apply exclusive_of_not_receiving
          simp [flagSet_setFlag_of_disjoint _ _ _ hTR, hr, hrs]
        · simp only [call_txQueue, configure_txQueue, configure_status, hq, Bool.not_true,
            Bool.false_eq_true, if_false, call_status, ht, hts]
          apply exclusive_of_not_receiving
          simp only
          apply flagSet_clearFlag_of_false
          rw [hr, hrs]
    · simp only [Bool.not_true, Bool.false_eq_true, if_false, ht, hts, if_true]
      apply exclusive_of_not_receiving
      simp [hr, hrs]
  · simp only [if_true]
    rw [exclusive_congr c _ _ (call_status _ _)]
    exact exclusive_of_flags c s _ (by simp [hr]) (by simp [ht]) h

theorem send_exclusive (c : Config) (hc : c.FlagsDistinct) (pkt : Option PktSerialPkt)
    (line : Nat) (s : PktSerial) (r : DeviceCode × PktSerial)
    (hr : send c pkt line s = some r) (h : exclusive c s) : exclusive c r.2 := by
  unfold send at hr
  cases ha : addToQueue c s.txQueue pkt s.irq with
  | none => simp [ha] at hr
  | some q =>
    simp only [ha, Option.some.injEq] at hr
    subst hr
    simp only
    split
    · apply sendPacket_exclusive c hc
      exact (exclusive_congr c s _ rfl).mpr h
    · exact (exclusive_congr c s _ rfl).mpr h

theorem sendBuf_exclusive (c : Config) (hc : c.FlagsDistinct) (buf : Option (List Nat))
    (len : Int) (address line : Nat) (s : PktSerial) (r : DeviceCode × PktSerial)
    (hr : sendBuf c buf len address line s = some r) (h : exclusive c s) :
    exclusive c r.2 := by
  unfold sendBuf at hr
  cases buf with
  | none =>
    simp only [Option.some.injEq] at hr
    subst hr; exact h
  | some bytes =>
    simp only at hr
    split at hr
    · simp only [Option.some.injEq] at hr
      subst hr; exact h
    · split at hr
      · simp at hr
      · exact send_exclusive c hc _ line s r hr h

theorem dmaComplete_exclusive (c : Config) (evt : Nat) (fresh : PktSerialPkt)
    (s t : PktSerial) (ht : dmaComplete c evt fresh s = some t) (h : exclusive c s) :
    exclusive c t := by
  have key : ∀ m, flagSet t.status m = true → flagSet s.status m = true := by
    intro m
    unfold dmaComplete at ht
    by_cases he : evt = SWS_EVT_ERROR
    · simp only [he, if_true, Option.some.injEq] at ht
      subst ht
      simp only [configure_status, call_status]
      split <;> split
      all_goals try simp only [call_status]
      all_goals intro hm
      all_goals first
        | exact hm
        | exact flagSet_clearFlag_imp _ _ _ hm
        | exact flagSet_clearFlag_imp _ _ _ (flagSet_clearFlag_imp _ _ _ hm)
    · simp only [he, if_false] at ht
      by_cases hrx : evt = SWS_EVT_DATA_RECEIVED
      · have hne : ¬ evt = SWS_EVT_DATA_SENT := by
          rw [hrx]; decide
        simp only [hrx, if_true] at ht
        cases ha : addToQueue c s.rxQueue s.rxBuf s.irq with
        | none => simp [ha] at ht
        | some q =>
          simp only [ha, hrx ▸ hne, if_false, Option.some.injEq] at ht
          subst ht
          simp only [configure_status, call_status]
          exact flagSet_clearFlag_imp _ _ _
      · simp only [hrx, if_false] at ht
        by_cases htx : evt = SWS_EVT_DATA_SENT
        · simp only [htx, if_true, Option.some.injEq] at ht
          subst ht
          simp only [configure_status, call_status]
          exact flagSet_clearFlag_imp _ _ _
        · simp only [htx, if_false, Option.some.injEq] at ht
          subst ht
          simp only [configure_status, call_status]
          exact id
  exact exclusive_of_flags c s t (key _) (key _) h

theorem periodicCallback_exclusive (c : Config) (baud : Nat) (s : PktSerial)
    (h : exclusive c s) : exclusive c (periodicCallback c baud s) := by
  have key : ∀ m, flagSet (periodicCallback c baud s).status m = true →
      flagSet s.status m = true := by
    intro m
    unfold periodicCallback
    by_cases h0 : s.timeoutCounter = 0 <;> simp only [h0, if_true, if_false] <;>
      split <;> try split
    all_goals try simp only [configure_status, call_status]
    all_goals first
      | exact id
      | exact flagSet_clearFlag_imp _ _ _
  exact exclusive_of_flags c s _ (key _) (key _) h

theorem step_exclusive (c : Config) (hc : c.FlagsDistinct) (op : Op) (s t : PktSerial)
    (ht : step c op s = some t) (h : exclusive c s) : exclusive c t := by
  cases op with
  | start fresh line =>
    simp only [step, Option.some.injEq] at ht
    subst ht; exact start_exclusive c hc fresh line s
  | stop =>
    simp only [step, Option.some.injEq] at ht
    subst ht; exact stop_exclusive c s h
  | send pkt line =>
    simp only [step, Option.map_eq_some'] at ht
    obtain ⟨r, hr, rfl⟩ := ht
    exact send_exclusive c hc pkt line s r hr h
  | sendBuf buf len address line =>
    simp only [step, Option.map_eq_some'] at ht
    obtain ⟨r, hr, rfl⟩ := ht
    exact sendBuf_exclusive c hc buf len address line s r hr h
  | sendPacket line =>
    simp only [step, Option.some.injEq] at ht
    subst ht; exact sendPacket_exclusive c hc line s h
  | onFallingEdge =>
    simp only [step, Option.some.injEq] at ht
    subst ht; exact onFallingEdge_exclusive c hc s h
  | dmaComplete evt fresh => exact dmaComplete_exclusive c evt fresh s t ht h
  | periodicCallback baud =>
    simp only [step, Option.some.injEq] at ht
    subst ht; exact periodicCallback_exclusive c baud s h
  | getPacket =>
    simp only [step, Option.some.injEq] at ht
    subst ht; exact (exclusive_congr c s _ rfl).mpr h
  | getPacketAt address =>
    simp only [step, Option.some.injEq] at ht
    subst ht; exact (exclusive_congr c s _ rfl).mpr h
  | dmaStore bytes =>
    simp only [step, Option.some.injEq] at ht
    subst ht
    split
    · exact (exclusive_congr c s _ rfl).mpr h
    · exact h

theorem run_exclusive (c : Config) (hc : c.FlagsDistinct) (ops : List Op) (s t : PktSerial)
    (ht : run c ops s = some t) (h : exclusive c s) : exclusive c t := by
  induction ops generalizing s with
  | nil =>
    simp only [run, Option.some.injEq] at ht
    subst ht; exact h
  | cons op ops ih =>
    simp only [run] at ht
    cases hs : step c op s with
    | none => simp [hs] at ht
    | some u =>
      simp only [hs] at ht
      exact ih u ht (step_exclusive c hc op s u hs h)

end PktSerial

/-- Without preemption the two bits exclude each other: in every state reached from
construction by events that each run from their first to their last statement, the
status word does not have both the Receiving and the Transmitting bit set.  The flag
masks are assumed to be distinct status bits. -/
theorem PktSerial.exclusive_of_reachable (c : Config) (hc : c.FlagsDistinct) (s : PktSerial)
    (hs : PktSerial.Reachable c s) :
    ¬ (PktSerial.receiving c s ∧ PktSerial.transmitting c s) := by
  obtain ⟨ops, hops⟩ := hs
  apply PktSerial.run_exclusive c hc ops PktSerial.init s hops
  apply PktSerial.exclusive_of_not_receiving
  simp [PktSerial.init, flagSet]

/-- The uninterrupted run `edgeDuringSend`: a falling edge that is handled after
`sendPacket` has returned finds Transmitting set and is ignored. -/
theorem PktSerial.exclusive_of_reachable_example :
    sampleConfig.FlagsDistinct ∧
    ∃ s, PktSerial.run sampleConfig edgeDuringSend PktSerial.init = some s ∧
      PktSerial.transmitting sampleConfig s ∧
      ¬ (PktSerial.receiving sampleConfig s ∧ PktSerial.transmitting sampleConfig s) := by
  refine ⟨by decide, _, rfl, by decide, ?_⟩
  exact PktSerial.exclusive_of_reachable sampleConfig (by decide) _ ⟨edgeDuringSend, rfl⟩

/-- Splitting `sendPacket` after `configure(true)` is faithful: when neither Receiving
nor Transmitting is set and the line reads high, `sendPacket` is `sendPacketHead`
followed by `sendPacketTail`. -/
theorem PktSerial.sendPacket_eq_tail_head (c : Config) (hc : c.FlagsDistinct) (line : Nat)
    (s : PktSerial) (hline : line ≠ 0)
    (hr : flagSet s.status c.PKT_SERIAL_RECEIVING = false)
    (ht : flagSet s.status c.PKT_SERIAL_TRANSMITTING = false) :
    PktSerial.sendPacket c line s
      = PktSerial.sendPacketTail c (PktSerial.sendPacketHead c s) := by
  obtain ⟨_, _, _, _, hDR, hDT, _, _⟩ := hc
  have hr2 := flagSet_setFlag_of_disjoint s.status _ _ hDR
  have ht2 := flagSet_setFlag_of_disjoint s.status _ _ hDT
  rw [hr] at hr2
  rw [ht] at ht2
  simp [PktSerial.sendPacket, PktSerial.sendPacketTail, PktSerial.sendPacketHead, hr2, ht2,
    hline]

/-- C6. `send(pkt)` is called on a running idle driver with the line high.  Run without
interruption, `send` is `addToQueue` followed by the two halves of `sendPacket`.  At the
point between the halves edge events have just been armed and interrupts are enabled.
When the falling-edge handler runs at that point it sets Receiving, and `sendPacket`
then goes on to set Transmitting: the status word ends up as 0x300e, with both the
Receiving and the Transmitting bit set. -/
theorem falling_edge_inside_sendPacket_sets_both :
    PktSerial.isRunning sampleConfig idleRunning = true ∧
    flagSet idleRunning.status sampleConfig.PKT_SERIAL_RECEIVING = false ∧
    flagSet idleRunning.status sampleConfig.PKT_SERIAL_TRANSMITTING = false ∧
    flagSet idleRunning.status sampleConfig.PKT_SERIAL_TX_DRAIN_ENABLE = false ∧
    PktSerial.send sampleConfig (some outgoing) 1 idleRunning
      = some (DEVICE_OK, PktSerial.sendPacketTail sampleConfig
          (PktSerial.sendPacketHead sampleConfig
            { idleRunning with txQueue := [outgoing], irq := true })) ∧
    (PktSerial.sendPacketHead sampleConfig
        { idleRunning with txQueue := [outgoing], irq := true }).pinEvent
      = DEVICE_PIN_EVENT_ON_EDGE ∧
    (PktSerial.sendPacketHead sampleConfig
        { idleRunning with txQueue := [outgoing], irq := true }).irq = true ∧
    (PktSerial.sendInterrupted sampleConfig (some outgoing) idleRunning).map
        (fun r => (r.1, r.2.status)) = some (DEVICE_OK, 0x300e) ∧
    (PktSerial.sendInterrupted sampleConfig (some outgoing) idleRunning).map
        (fun r => (flagSet r.2.status sampleConfig.PKT_SERIAL_RECEIVING,
                   flagSet r.2.status sampleConfig.PKT_SERIAL_TRANSMITTING))
      = some (true, true) := by
  refine ⟨by decide, by decide, by decide, by decide, by decide, by decide, by decide,
    by decide, by decide⟩

/-! ## Sending while a reception is in progress -/

/-- C7, refuted as stated. After `sendsDuringReceive` the Receiving bit is set and the TX
queue holds the eleven packets.  A further `send(pkt)` returns `DEVICE_NO_RESOURCES` and
the TX queue is still those eleven packets: the submitted packet is not queued. -/
theorem send_while_receiving_drops_when_full :
    (PktSerial.run sampleConfig sendsDuringReceive PktSerial.init).map
        (fun s => (flagSet s.status sampleConfig.PKT_SERIAL_RECEIVING, s.txQueue))
      = some (true, elevenPackets) ∧
    (PktSerial.run sampleConfig sendsDuringReceive PktSerial.init).bind
        (fun s => (PktSerial.send sampleConfig (some outgoing) 1 s).map
          (fun r => (r.1, r.2.txQueue)))
      = some (DEVICE_NO_RESOURCES, elevenPackets) ∧
    outgoing ∉ elevenPackets := by
  refine ⟨by decide, by decide, by decide⟩

/-- C7, amended. In every state in which the Receiving bit is set, the drain routine
`sendPacket` only sets the drain-enable flag and schedules a drain event after 4000 µs.
`send(pkt)` with a non-null packet leaves `txBuf`, the Transmitting bit, the pin and the
serial engine untouched; it either returns `DEVICE_OK` with the packet appended at the
tail of the TX queue, or, when `addToQueue` finds the queue full, returns
`DEVICE_NO_RESOURCES` with the TX queue unchanged (the packet is dropped).  The only
collaborator call `send` makes is the scheduling of a drain event, and it makes it
exactly when the drain-enable flag was clear.  So nothing is dequeued, Transmitting is
not set, the line is not driven and no DMA send is started. -/
theorem send_deferred_while_receiving (c : Config) (hc : c.FlagsDistinct) (line : Nat)
    (s : PktSerial) (hrecv : PktSerial.receiving c s) :
    PktSerial.sendPacket c line s =
        { s with
          status := setFlag s.status c.PKT_SERIAL_TX_DRAIN_ENABLE
          trace := s.trace ++ [.eventAfterUs 4000 PKT_SERIAL_EVT_DRAIN] } ∧
    (PktSerial.transmitting c (PktSerial.sendPacket c line s) ↔ PktSerial.transmitting c s) ∧
    ∀ pkt : PktSerialPkt, ∃ ret t,
      PktSerial.send c (some pkt) line s = some (ret, t) ∧
      ((ret = DEVICE_OK ∧ t.txQueue = s.txQueue ++ [pkt]) ∨
        (ret = DEVICE_NO_RESOURCES ∧ t.txQueue = s.txQueue)) ∧
      t.txBuf = s.txBuf ∧
      (PktSerial.transmitting c t ↔ PktSerial.transmitting c s) ∧
      t.pin = s.pin ∧ t.mode = s.mode ∧ t.pinEvent = s.pinEvent ∧
      t.trace = s.trace ++
        (if flagSet s.status c.PKT_SERIAL_TX_DRAIN_ENABLE then []
          else [.eventAfterUs 4000 PKT_SERIAL_EVT_DRAIN]) := by
  obtain ⟨_, _, _, _, hDR, hDT, _, _⟩ := hc
  have hrecv' : flagSet s.status c.PKT_SERIAL_RECEIVING = true := hrecv
  have hr := flagSet_setFlag_of_disjoint s.status _ _ hDR
  have ht := flagSet_setFlag_of_disjoint s.status _ _ hDT
  have hsp : ∀ u : PktSerial, u.status = s.status → PktSerial.sendPacket c line u =
        { u with
          status := setFlag u.status c.PKT_SERIAL_TX_DRAIN_ENABLE
          trace := u.trace ++ [.eventAfterUs 4000 PKT_SERIAL_EVT_DRAIN] } := by
    intro u hu
    simp [PktSerial.sendPacket, hu, hr, hrecv', PktSerial.call]
  refine ⟨hsp s rfl, ?_, ?_⟩
  · rw [hsp s rfl]
    simp only [PktSerial.transmitting, ht]
  · intro pkt
    simp only [PktSerial.send, PktSerial.addToQueue_some]
    by_cases hq : s.txQueue.length ≤ c.PKT_SERIAL_MAXIMUM_BUFFERS <;>
      by_cases hd : flagSet s.status c.PKT_SERIAL_TX_DRAIN_ENABLE = true <;>
      simp only [hq, hd, if_true, if_false, Bool.not_false, Bool.not_true,
        Bool.false_eq_true, Bool.not_eq_true] <;>
      refine ⟨_, _, rfl, ?_⟩ <;>
      simp [hsp, PktSerial.transmitting, ht]

/-- C7, amended, at `receivingOneQueued`: a second packet submitted with `send` is
appended behind the first one and `DEVICE_OK` is returned. -/
theorem send_deferred_while_receiving_witness :
    sampleConfig.FlagsDistinct ∧ PktSerial.receiving sampleConfig receivingOneQueued ∧
    (PktSerial.send sampleConfig (some outgoing) 1 receivingOneQueued).map
        (fun r => (r.1, r.2.txQueue)) = some (DEVICE_OK, [⟨7, 1, 1, [9]⟩, outgoing]) ∧
    (PktSerial.transmitting sampleConfig (PktSerial.sendPacket sampleConfig 1 receivingOneQueued)
      ↔ PktSerial.transmitting sampleConfig receivingOneQueued) :=
  ⟨by decide, by decide, by decide,
   (send_deferred_while_receiving sampleConfig (by decide) 1 receivingOneQueued
      (by decide)).2.1⟩

/-! ## DMA completion -/

namespace PktSerial

/-- Whenever `dmaComplete` returns, the last thing it did was to run the three
statements that put the line back to idle. -/
theorem dmaComplete_tail (c : Config) (evt : Nat) (fresh : PktSerialPkt) (s t : PktSerial)
    (ht : dmaComplete c evt fresh s = some t) :
    ∃ u : PktSerial, t = configure true (call (.setDigitalValue 1)
        (call (.setMode SingleWireDisconnected) u)) := by
  unfold dmaComplete at ht
  by_cases he : evt = SWS_EVT_ERROR
  · simp only [he, if_true, Option.some.injEq] at ht
    exact ⟨_, ht.symm⟩
  · simp only [he, if_false] at ht
    by_cases hrx : evt = SWS_EVT_DATA_RECEIVED
    · have hne : ¬ SWS_EVT_DATA_RECEIVED = SWS_EVT_DATA_SENT := by decide
      simp only [hrx, if_true] at ht
      cases ha : addToQueue c s.rxQueue s.rxBuf s.irq with
      | none => simp [ha] at ht
      | some q =>
        simp only [ha, hne, if_false, Option.some.injEq] at ht
        exact ⟨_, ht.symm⟩
    · simp only [hrx, if_false] at ht
      by_cases htx : evt = SWS_EVT_DATA_SENT
      · simp only [htx, if_true, Option.some.injEq] at ht
        exact ⟨_, ht.symm⟩
      · simp only [htx, if_false, Option.some.injEq] at ht
        exact ⟨_, ht.symm⟩

/-- Whenever `dmaComplete` returns, the serial engine is in Disconnected mode and the
pin is a pulled-up input with edge events on. -/
theorem dmaComplete_idle (c : Config) (evt : Nat) (fresh : PktSerialPkt) (s t : PktSerial)
    (ht : dmaComplete c evt fresh s = some t) :
    t.mode = some SingleWireDisconnected ∧ t.pin = .input Up ∧
    t.pinEvent = DEVICE_PIN_EVENT_ON_EDGE := by
  obtain ⟨u, rfl⟩ := dmaComplete_tail c evt fresh s t ht
  exact ⟨rfl, rfl, rfl⟩

/-- The function `dmaComplete` returns unless the completion is
`SWS_EVT_DATA_RECEIVED` and `rxBuf` is null. -/
theorem dmaComplete_returns_iff (c : Config) (evt : Nat) (fresh : PktSerialPkt)
    (s : PktSerial) :
    (∃ t, dmaComplete c evt fresh s = some t) ↔
      ¬ (evt = SWS_EVT_DATA_RECEIVED ∧ s.rxBuf = none) := by
  by_cases he : evt = SWS_EVT_ERROR
  · subst he
    simp [dmaComplete, SWS_EVT_ERROR, SWS_EVT_DATA_RECEIVED]
  · by_cases hrx : evt = SWS_EVT_DATA_RECEIVED
    · cases hb : s.rxBuf with
      | none => simp [dmaComplete, hrx, hb, addToQueue, SWS_EVT_DATA_RECEIVED, SWS_EVT_ERROR]
      | some p =>
        rw [hrx, dmaComplete_received c fresh p s hb]
        simp
    · by_cases htx : evt = SWS_EVT_DATA_SENT
      · subst htx
        simp [dmaComplete, SWS_EVT_ERROR, SWS_EVT_DATA_RECEIVED, SWS_EVT_DATA_SENT]
      · simp [dmaComplete, he, hrx, htx]

end PktSerial

/-- C9. The driver is started with the line high, a falling edge starts a reception and
`stop` is called before the DMA completes: the Receiving bit is still set and `rxBuf` is
null.  The completion `SWS_EVT_DATA_RECEIVED` then passes the null `rxBuf` to
`addToQueue`, which writes through it, so `dmaComplete` does not reach the statements
that put the line back to idle.  The same happens on a freshly constructed object. -/
theorem dmaComplete_null_rxBuf_no_return :
    (PktSerial.run sampleConfig [.start ⟨0, 0, 0, []⟩ 1, .onFallingEdge, .stop]
        PktSerial.init).map
        (fun s => (flagSet s.status sampleConfig.PKT_SERIAL_RECEIVING, s.rxBuf))
      = some (true, none) ∧
    (PktSerial.run sampleConfig [.start ⟨0, 0, 0, []⟩ 1, .onFallingEdge, .stop]
        PktSerial.init).bind
        (PktSerial.dmaComplete sampleConfig SWS_EVT_DATA_RECEIVED ⟨0, 0, 0, []⟩)
      = none ∧
    PktSerial.dmaComplete sampleConfig SWS_EVT_DATA_RECEIVED ⟨0, 0, 0, []⟩ PktSerial.init
      = none := by
  refine ⟨by decide, by decide, by decide⟩

/-! ## Receive timeout -/

namespace PktSerial

theorem ticks_succ (c : Config) (baud n : Nat) (s : PktSerial) :
    ticks c baud (n + 1) s = periodicCallback c baud (ticks c baud n s) := by
  induction n generalizing s with
  | zero => rfl
  | succ n ih =>
    rw [ticks, ih (periodicCallback c baud s)]
    rfl

theorem timeoutTicks_lt (c : Config) (baud : Nat) : timeoutTicks c baud + 1 < 2 ^ 32 := by
  show (1000000 / baud * 100 * c.PKT_SERIAL_PACKET_SIZE) % 2 ^ 32
      / c.SCHEDULER_TICK_PERIOD_US + 1 < 2 ^ 32
  have h4 : 1000000 / baud * 100 * c.PKT_SERIAL_PACKET_SIZE
      = 4 * (1000000 / baud * 25 * c.PKT_SERIAL_PACKET_SIZE) := by ring
  have hle := Nat.div_le_self
    ((1000000 / baud * 100 * c.PKT_SERIAL_PACKET_SIZE) % 2 ^ 32) c.SCHEDULER_TICK_PERIOD_US
  rw [h4] at hle ⊢
  generalize 1000000 / baud * 25 * c.PKT_SERIAL_PACKET_SIZE = y at hle ⊢
  omega

/-- While the deadline has not passed, a tick only counts: after `k` ticks, with
`k` at most the timeout value, the counter is `k` and nothing else has changed apart
from `timeoutValue`, which the first tick computes. -/
theorem ticks_before_deadline (c : Config) (baud : Nat) (s : PktSerial)
    (hrecv : receiving c s) (hcnt : s.timeoutCounter = 0) (k : Nat)
    (hk : k ≤ timeoutTicks c baud) :
    ticks c baud k s =
      { s with
        timeoutValue := if k = 0 then s.timeoutValue else timeoutTicks c baud
        timeoutCounter := k } := by
  have hlt := timeoutTicks_lt c baud
  have hrecv' : flagSet s.status c.PKT_SERIAL_RECEIVING = true := hrecv
  induction k with
  | zero =>
    cases s
    simp only [ticks, if_true] at hcnt ⊢
    simp [hcnt]
  | succ k ih =>
    rw [ticks_succ, ih (by omega)]
    have hmod : (k + 1) % 4294967296 = k + 1 := by omega
    by_cases hk0 : k = 0
    · subst hk0
      have h1 : ¬ 1 > timeoutTicks c baud := by omega
      simp [periodicCallback, hrecv', h1]
    · have h1 : ¬ k + 1 > timeoutTicks c baud := by omega
      simp [periodicCallback, hrecv', hk0, hmod, h1]

end PktSerial

/-- C10. Let `N = ((1000000 / baud) * 100 * PKT_SERIAL_PACKET_SIZE) / SCHEDULER_TICK_PERIOD_US`
in unsigned 32-bit arithmetic, with `baud > 0`.  From a state in which the Receiving bit
is set and the timeout counter is 0 (as `onFallingEdge` leaves it), and with no other
event in between, each of the first `N` `periodicCallback` ticks leaves the Receiving
bit set and issues no call, and tick `N + 1` aborts the DMA, raises
`PKT_SERIAL_EVT_BUS_ERROR`, resets the counter to 0, clears the Receiving bit and puts the
line back to idle. -/
theorem rx_timeout_deadline (c : Config) (baud : Nat) (_hbaud : 0 < baud)
    (_htick : 0 < c.SCHEDULER_TICK_PERIOD_US) (s : PktSerial)
    (hrecv : PktSerial.receiving c s) (hcnt : s.timeoutCounter = 0) (N : Nat)
    (hN : N = ((1000000 / baud) * 100 * c.PKT_SERIAL_PACKET_SIZE) % 2 ^ 32
                / c.SCHEDULER_TICK_PERIOD_US) :
    (∀ k, k ≤ N → PktSerial.receiving c (PktSerial.ticks c baud k s) ∧
        (PktSerial.ticks c baud k s).trace = s.trace) ∧
    PktSerial.ticks c baud (N + 1) s =
      { s with
        status := clearFlag s.status c.PKT_SERIAL_RECEIVING
        timeoutValue := N
        timeoutCounter := 0
        mode := some SingleWireDisconnected
        pin := .input Up
        pinEvent := DEVICE_PIN_EVENT_ON_EDGE
        trace := s.trace ++ [.abortDMA, .fire PKT_SERIAL_EVT_BUS_ERROR,
                             .setMode SingleWireDisconnected, .setDigitalValue 1,
                             .getDigitalValue Up, .eventOn DEVICE_PIN_EVENT_ON_EDGE] } ∧
    ¬ PktSerial.receiving c (PktSerial.ticks c baud (N + 1) s) := by
  have hN' : N = PktSerial.timeoutTicks c baud := hN
  subst hN'
  have hlt := PktSerial.timeoutTicks_lt c baud
  have hrecv' : flagSet s.status c.PKT_SERIAL_RECEIVING = true := hrecv
  have hlast : PktSerial.ticks c baud (PktSerial.timeoutTicks c baud + 1) s =
      { s with
        status := clearFlag s.status c.PKT_SERIAL_RECEIVING
        timeoutValue := PktSerial.timeoutTicks c baud
        timeoutCounter := 0
        mode := some SingleWireDisconnected
        pin := .input Up
        pinEvent := DEVICE_PIN_EVENT_ON_EDGE
        trace := s.trace ++ [.abortDMA, .fire PKT_SERIAL_EVT_BUS_ERROR,
                             .setMode SingleWireDisconnected, .setDigitalValue 1,
                             .getDigitalValue Up, .eventOn DEVICE_PIN_EVENT_ON_EDGE] } := by
    rw [PktSerial.ticks_succ, PktSerial.ticks_before_deadline c baud s hrecv hcnt _ (le_refl _)]
    have hmod : (PktSerial.timeoutTicks c baud + 1) % 4294967296
        = PktSerial.timeoutTicks c baud + 1 := by omega
    by_cases h0 : PktSerial.timeoutTicks c baud = 0
    · simp [PktSerial.periodicCallback, hrecv', h0, hcnt, PktSerial.configure, PktSerial.call]
    · simp [PktSerial.periodicCallback, hrecv', h0, hmod, PktSerial.configure, PktSerial.call]
  refine ⟨?_, hlast, ?_⟩
  · intro k hk
    rw [PktSerial.ticks_before_deadline c baud s hrecv hcnt k hk]
    exact ⟨hrecv, rfl⟩
  · rw [hlast]
    simp [PktSerial.receiving, flagSet_clearFlag_self]

/-- C10 at 125 kBaud with 32-byte packets and a 4 ms tick, where `N` is
8 * 100 * 32 / 4000 = 6: after six ticks the driver is still receiving, the seventh
tick ends the reception. -/
theorem rx_timeout_deadline_witness :
    PktSerial.receiving sampleConfig (PktSerial.onFallingEdge sampleConfig idleRunning) ∧
    (PktSerial.onFallingEdge sampleConfig idleRunning).timeoutCounter = 0 ∧
    PktSerial.receiving sampleConfig
        (PktSerial.ticks sampleConfig 125000 6
          (PktSerial.onFallingEdge sampleConfig idleRunning)) ∧
    ¬ PktSerial.receiving sampleConfig
        (PktSerial.ticks sampleConfig 125000 (6 + 1)
          (PktSerial.onFallingEdge sampleConfig idleRunning)) :=
  ⟨by decide, by decide,
   ((rx_timeout_deadline sampleConfig 125000 (by decide) (by decide)
      (PktSerial.onFallingEdge sampleConfig idleRunning) (by decide) (by decide) 6
      (by decide)).1 6 (le_refl 6)).1,
   (rx_timeout_deadline sampleConfig 125000 (by decide) (by decide)
      (PktSerial.onFallingEdge sampleConfig idleRunning) (by decide) (by decide) 6
      (by decide)).2.2⟩

/-! ## Back-off delays -/

/-- C11. The three back-off drain events are scheduled with a fixed delay of 4000 µs,
which is not below `JD_SERIAL_TX_MAX_BACKOFF` = 1000 µs: `sendPacket` while Receiving is
set issues only `eventAfterUs 4000`; `sendPacket` on an idle driver that samples the
line low enters reception and then issues `eventAfterUs 4000`; `dmaComplete` on
`SWS_EVT_DATA_SENT` issues `eventAfterUs 4000` before it puts the line back to idle. -/
theorem backoff_delay_is_fixed_4000 :
    JD_SERIAL_TX_MAX_BACKOFF = 1000 ∧
    (PktSerial.sendPacket sampleConfig 1 receivingWithQueued).trace
      = receivingWithQueued.trace ++ [.eventAfterUs 4000 PKT_SERIAL_EVT_DRAIN] ∧
    (PktSerial.sendPacket sampleConfig 0 idleRunning).trace
      = idleRunning.trace ++
          [.getDigitalValue Up, .eventOn DEVICE_PIN_EVENT_NONE, .getDigitalValue PullMode.None,
           .receiveDMA idleRunning.rxBuf 32, .eventAfterUs 4000 PKT_SERIAL_EVT_DRAIN] ∧
    (PktSerial.dmaComplete sampleConfig SWS_EVT_DATA_SENT ⟨0, 0, 0, []⟩ transmittingState).map
        (fun t => t.trace)
      = some (transmittingState.trace ++
          [.eventAfterUs 4000 PKT_SERIAL_EVT_DRAIN, .setMode SingleWireDisconnected,
           .setDigitalValue 1, .getDigitalValue Up, .eventOn DEVICE_PIN_EVENT_ON_EDGE]) ∧
    ¬ 4000 < JD_SERIAL_TX_MAX_BACKOFF := by
  refine ⟨by decide, by decide, by decide, by decide, by decide⟩

/-! ## Stop and start -/

theorem clearFlag_or_and_left (s a b : Nat) : clearFlag s (a ||| b) &&& a = 0 := by
  apply Nat.eq_of_testBit_eq
  intro i
  simp only [clearFlag, Nat.testBit_and, Nat.testBit_xor, Nat.testBit_or, Nat.zero_testBit]
  cases s.testBit i <;> cases a.testBit i <;> cases b.testBit i <;> rfl

theorem clearFlag_setFlag_zero (m : Nat) : clearFlag (setFlag 0 m) m = 0 := by
  apply Nat.eq_of_testBit_eq
  intro i
  simp only [clearFlag, setFlag, Nat.testBit_and, Nat.testBit_xor, Nat.testBit_or,
    Nat.zero_testBit]
  cases m.testBit i <;> rfl

/-- C12, refuted as stated. `stop` is called on `idleWithQueues`, a running driver with
no transfer outstanding (neither Receiving nor Transmitting is set) that holds one packet
in each queue: afterwards both queues still hold their packet. -/
theorem stop_keeps_queued_packets :
    flagSet idleWithQueues.status sampleConfig.PKT_SERIAL_RECEIVING = false ∧
    flagSet idleWithQueues.status sampleConfig.PKT_SERIAL_TRANSMITTING = false ∧
    (PktSerial.stop sampleConfig idleWithQueues).rxQueue = [⟨16, 9, 1, [6]⟩] ∧
    (PktSerial.stop sampleConfig idleWithQueues).txQueue = [outgoing] ∧
    (PktSerial.stop sampleConfig idleWithQueues).rxQueue ≠ [] ∧
    (PktSerial.stop sampleConfig idleWithQueues).txQueue ≠ [] := by
  refine ⟨by decide, by decide, by decide, by decide, by decide, by decide⟩

/-- What `stop` leaves behind, field by field. -/
theorem PktSerial.stop_fields (c : Config) (s : PktSerial) :
    PktSerial.isRunning c (PktSerial.stop c s) = false ∧
    (PktSerial.stop c s).rxBuf = none ∧
    (PktSerial.stop c s).pin = .input Up ∧
    (PktSerial.stop c s).pinEvent = DEVICE_PIN_EVENT_NONE ∧
    (PktSerial.stop c s).rxQueue = s.rxQueue ∧
    (PktSerial.stop c s).txQueue = s.txQueue ∧
    (PktSerial.stop c s).txBuf = s.txBuf ∧
    (PktSerial.stop c s).trace
      = s.trace ++ [.getDigitalValue Up, .eventOn DEVICE_PIN_EVENT_NONE] := by
  have hrun : flagSet (clearFlag s.status
      (c.DEVICE_COMPONENT_RUNNING ||| c.DEVICE_COMPONENT_STATUS_SYSTEM_TICK))
      c.DEVICE_COMPONENT_RUNNING = false := by
    rw [flagSet_eq_false]; exact clearFlag_or_and_left _ _ _
  cases hb : s.rxBuf <;>
    simp [PktSerial.stop, PktSerial.isRunning, PktSerial.configure, PktSerial.call, hb, hrun]

/-- C12, amended. For every state, after `stop()` the driver is not running, the pin is
a pulled-up input with edge events disabled, and the RX queue and the TX queue hold
exactly the packets they held before the call: `stop` does not drain the queues.  When
neither Receiving nor Transmitting was set before the call, neither is set after it. -/
theorem stop_effect (c : Config) (s : PktSerial) :
    PktSerial.isRunning c (PktSerial.stop c s) = false ∧
    (PktSerial.stop c s).pin = .input Up ∧
    (PktSerial.stop c s).pinEvent = DEVICE_PIN_EVENT_NONE ∧
    (PktSerial.stop c s).rxQueue = s.rxQueue ∧
    (PktSerial.stop c s).txQueue = s.txQueue ∧
    (¬ PktSerial.receiving c s → ¬ PktSerial.receiving c (PktSerial.stop c s)) ∧
    (¬ PktSerial.transmitting c s → ¬ PktSerial.transmitting c (PktSerial.stop c s)) := by
  have hrun : flagSet (clearFlag s.status
      (c.DEVICE_COMPONENT_RUNNING ||| c.DEVICE_COMPONENT_STATUS_SYSTEM_TICK))
      c.DEVICE_COMPONENT_RUNNING = false := by
    rw [flagSet_eq_false]; exact clearFlag_or_and_left _ _ _
  have hst : (PktSerial.stop c s).status = clearFlag s.status
      (c.DEVICE_COMPONENT_RUNNING ||| c.DEVICE_COMPONENT_STATUS_SYSTEM_TICK) := by
    cases hb : s.rxBuf <;> simp [PktSerial.stop, hb]
  refine ⟨?_, ?_, ?_, ?_, ?_, ?_, ?_⟩
  · simp [PktSerial.isRunning, hst, hrun]
  · cases hb : s.rxBuf <;> simp [PktSerial.stop, PktSerial.configure, PktSerial.call, hb]
  · cases hb : s.rxBuf <;> simp [PktSerial.stop, PktSerial.configure, PktSerial.call, hb]
  · cases hb : s.rxBuf <;> simp [PktSerial.stop, hb]
  · cases hb : s.rxBuf <;> simp [PktSerial.stop, hb]
  · intro h h2
    apply h
    unfold PktSerial.receiving at h2 ⊢
    rw [hst] at h2
    exact PktSerial.flagSet_clearFlag_imp _ _ _ h2
  · intro h h2
    apply h
    unfold PktSerial.transmitting at h2 ⊢
    rw [hst] at h2
    exact PktSerial.flagSet_clearFlag_imp _ _ _ h2

/-- C12, amended, at `idleWithQueues`: no transfer is outstanding before `stop` and none
is after it, and the two queued packets are still there. -/
theorem stop_effect_witness :
    ¬ PktSerial.receiving sampleConfig idleWithQueues ∧
    ¬ PktSerial.transmitting sampleConfig idleWithQueues ∧
    ¬ PktSerial.receiving sampleConfig (PktSerial.stop sampleConfig idleWithQueues) ∧
    ¬ PktSerial.transmitting sampleConfig (PktSerial.stop sampleConfig idleWithQueues) ∧
    (PktSerial.stop sampleConfig idleWithQueues).rxQueue = idleWithQueues.rxQueue :=
  ⟨by decide, by decide,
   (stop_effect sampleConfig idleWithQueues).2.2.2.2.2.1 (by decide),
   (stop_effect sampleConfig idleWithQueues).2.2.2.2.2.2 (by decide),
   (stop_effect sampleConfig idleWithQueues).2.2.2.1⟩

namespace PktSerial

@[simp] theorem call_mode_of_pin (s : PktSerial) (pull : PullMode) :
    (call (.getDigitalValue pull) s).mode = s.mode := rfl

@[simp] theorem onFallingEdge_queues (c : Config) (s : PktSerial) :
    (onFallingEdge c s).rxQueue = s.rxQueue ∧ (onFallingEdge c s).txQueue = s.txQueue ∧
    (onFallingEdge c s).txBuf = s.txBuf ∧ (onFallingEdge c s).rxBuf = s.rxBuf ∧
    (onFallingEdge c s).mode = s.mode ∧ (onFallingEdge c s).irq = s.irq := by
  unfold onFallingEdge
  split <;> simp [call]

end PktSerial

/-- C13. `start` is idempotent: for every initial state and every line level, read
alike by both calls, the object after `start(); start()` is in the same state as after
a single `start()`, whatever the second `malloc` would have returned. -/
theorem start_idempotent (c : Config) (fresh again : PktSerialPkt) (line : Nat)
    (s : PktSerial) :
    PktSerial.forgetTrace (PktSerial.start c again line (PktSerial.start c fresh line s))
      = PktSerial.forgetTrace (PktSerial.start c fresh line s) := by
  by_cases hl : line = 0 <;>
    by_cases hg : (flagSet (setFlag 0
        (c.DEVICE_COMPONENT_RUNNING ||| c.DEVICE_COMPONENT_STATUS_SYSTEM_TICK))
        (c.PKT_SERIAL_RECEIVING ||| c.PKT_SERIAL_TRANSMITTING)
      || !flagSet (setFlag 0
        (c.DEVICE_COMPONENT_RUNNING ||| c.DEVICE_COMPONENT_STATUS_SYSTEM_TICK))
        c.DEVICE_COMPONENT_RUNNING) = true <;>
    cases hb : s.rxBuf <;>
    simp [PktSerial.start, PktSerial.onFallingEdge, PktSerial.configure, PktSerial.call,
      PktSerial.forgetTrace, hl, hg, hb]

/-- C14, refuted as stated. On a freshly constructed object with the line low, `stop`
leaves the status word 0 whereas `stop(); start(); stop()` leaves the Receiving bit set.
On a transmitting driver with the line high, `stop` keeps the Transmitting bit whereas
`stop(); start(); stop()` leaves the status word 0. -/
theorem stop_start_stop_differs :
    (PktSerial.stop sampleConfig PktSerial.init).status = 0 ∧
    (PktSerial.stop sampleConfig (PktSerial.start sampleConfig ⟨0, 0, 0, []⟩ 0
        (PktSerial.stop sampleConfig PktSerial.init))).status
      = sampleConfig.PKT_SERIAL_RECEIVING ∧
    (PktSerial.stop sampleConfig transmittingState).status
      = sampleConfig.PKT_SERIAL_TRANSMITTING ||| sampleConfig.PKT_SERIAL_TX_DRAIN_ENABLE ∧
    (PktSerial.stop sampleConfig (PktSerial.start sampleConfig ⟨0, 0, 0, []⟩ 1
        (PktSerial.stop sampleConfig transmittingState))).status = 0 := by
  refine ⟨by decide, by decide, by decide, by decide⟩

/-- C14, amended. For every initial state and every line level, the state after
`stop(); start(); stop()` and the state after a single `stop()` have the same RX buffer
(null), the same RX and TX queues, the same `txBuf`, the same pin configuration
(pulled-up input, edge events disabled) and the same serial mode.  The status word is the
same as well when the line reads high during `start` and the initial status word has no
bit set outside `DEVICE_COMPONENT_RUNNING | DEVICE_COMPONENT_STATUS_SYSTEM_TICK`. -/
theorem stop_start_stop (c : Config) (fresh : PktSerialPkt) (line : Nat) (s : PktSerial) :
    (PktSerial.stop c (PktSerial.start c fresh line (PktSerial.stop c s))).rxBuf
      = (PktSerial.stop c s).rxBuf ∧
    (PktSerial.stop c (PktSerial.start c fresh line (PktSerial.stop c s))).rxQueue
      = (PktSerial.stop c s).rxQueue ∧
    (PktSerial.stop c (PktSerial.start c fresh line (PktSerial.stop c s))).txQueue
      = (PktSerial.stop c s).txQueue ∧
    (PktSerial.stop c (PktSerial.start c fresh line (PktSerial.stop c s))).txBuf
      = (PktSerial.stop c s).txBuf ∧
    (PktSerial.stop c (PktSerial.start c fresh line (PktSerial.stop c s))).pin
      = (PktSerial.stop c s).pin ∧
    (PktSerial.stop c (PktSerial.start c fresh line (PktSerial.stop c s))).pinEvent
      = (PktSerial.stop c s).pinEvent ∧
    (PktSerial.stop c (PktSerial.start c fresh line (PktSerial.stop c s))).mode
      = (PktSerial.stop c s).mode ∧
    (line ≠ 0 →
      clearFlag s.status
        (c.DEVICE_COMPONENT_RUNNING ||| c.DEVICE_COMPONENT_STATUS_SYSTEM_TICK) = 0 →
      (PktSerial.stop c (PktSerial.start c fresh line (PktSerial.stop c s))).status
        = (PktSerial.stop c s).status) := by
  have hs := PktSerial.stop_fields c s
  have ha := PktSerial.stop_fields c (PktSerial.start c fresh line (PktSerial.stop c s))
  obtain ⟨_, hs2, hs3, hs4, hs5, hs6, hs7, _⟩ := hs
  obtain ⟨_, ha2, ha3, ha4, ha5, ha6, ha7, _⟩ := ha
  have hstart : ∀ u : PktSerial,
      (PktSerial.start c fresh line u).rxQueue = u.rxQueue ∧
      (PktSerial.start c fresh line u).txQueue = u.txQueue ∧
      (PktSerial.start c fresh line u).txBuf = u.txBuf ∧
      (PktSerial.start c fresh line u).mode = u.mode := by
    intro u
    unfold PktSerial.start
    by_cases hl : line = 0 <;> cases hb : u.rxBuf <;>
      simp [hl, hb, PktSerial.configure, PktSerial.call]
  obtain ⟨h1, h2, h3, h4⟩ := hstart (PktSerial.stop c s)
  refine ⟨by rw [ha2, hs2], by rw [ha5, h1], by rw [ha6, h2], by rw [ha7, h3],
    by rw [ha3, hs3], by rw [ha4, hs4], ?_, ?_⟩
  · have hm : ∀ u : PktSerial, (PktSerial.stop c u).mode = u.mode := by
      intro u
      cases hb : u.rxBuf <;> simp [PktSerial.stop, PktSerial.configure, PktSerial.call, hb]
    rw [hm, h4]
  · intro hl hclean
    have hst : ∀ u : PktSerial, (PktSerial.stop c u).status = clearFlag u.status
        (c.DEVICE_COMPONENT_RUNNING ||| c.DEVICE_COMPONENT_STATUS_SYSTEM_TICK) := by
      intro u
      cases hb : u.rxBuf <;> simp [PktSerial.stop, hb]
    have hstatus : (PktSerial.start c fresh line (PktSerial.stop c s)).status
        = setFlag 0 (c.DEVICE_COMPONENT_RUNNING ||| c.DEVICE_COMPONENT_STATUS_SYSTEM_TICK) := by
      simp [PktSerial.start, hl]
    rw [hst, hst, hstatus, hclean, clearFlag_setFlag_zero]

/-- C14, amended, on a freshly constructed object with the line high: both runs end
with a zero status word. -/
theorem stop_start_stop_witness :
    (1 : Nat) ≠ 0 ∧
    clearFlag PktSerial.init.status
      (sampleConfig.DEVICE_COMPONENT_RUNNING ||| sampleConfig.DEVICE_COMPONENT_STATUS_SYSTEM_TICK)
      = 0 ∧
    (PktSerial.stop sampleConfig (PktSerial.start sampleConfig ⟨0, 0, 0, []⟩ 1
        (PktSerial.stop sampleConfig PktSerial.init))).status
      = (PktSerial.stop sampleConfig PktSerial.init).status :=
  ⟨by decide, by decide,
   (stop_start_stop sampleConfig ⟨0, 0, 0, []⟩ 1 PktSerial.init).2.2.2.2.2.2.2
     (by decide) (by decide)⟩

/-! ## Parameter checks of `send` -/

namespace PktSerial

/-- When exactly `send(uint8_t*, int, uint8_t)` answers `DEVICE_INVALID_PARAMETER`: for
a null buffer, a length that is not positive, or a length of `PKT_SERIAL_DATA_SIZE` or
more.  The state is then unchanged. -/
theorem sendBuf_invalid_iff (c : Config) (buf : Option (List Nat)) (len : Int)
    (address line : Nat) (s : PktSerial) :
    (buf = none ∨ len ≤ 0 ∨ len ≥ (c.PKT_SERIAL_DATA_SIZE : Int) →
      sendBuf c buf len address line s = some (DEVICE_INVALID_PARAMETER, s)) ∧
    (¬ (buf = none ∨ len ≤ 0 ∨ len ≥ (c.PKT_SERIAL_DATA_SIZE : Int)) →
      ∀ r, sendBuf c buf len address line s = some r → r.1 ≠ DEVICE_INVALID_PARAMETER) := by
  constructor
  · intro h
    cases buf with
    | none => rfl
    | some bytes =>
      have h2 : len ≤ 0 ∨ len ≥ (c.PKT_SERIAL_DATA_SIZE : Int) := by
        rcases h with h | h
        · cases h
        · exact h
      simp [sendBuf, h2]
  · intro h r hr
    cases buf with
    | none => simp at h
    | some bytes =>
      have h2 : ¬ (len ≤ 0 ∨ len ≥ (c.PKT_SERIAL_DATA_SIZE : Int)) := fun h3 => h (Or.inr h3)
      simp only [sendBuf, h2, if_false] at hr
      split at hr
      · simp at hr
      · simp only [send, addToQueue_some] at hr
        by_cases hq : s.txQueue.length ≤ c.PKT_SERIAL_MAXIMUM_BUFFERS
        · simp only [hq, if_true, Option.some.injEq] at hr
          rw [← hr]; simp
        · simp only [hq, if_false, Option.some.injEq] at hr
          rw [← hr]; simp

/-- The return value of `send(PktSerialPkt*)` for a non-null packet is the return value
of `addToQueue`: `DEVICE_OK` with the packet linked in, or `DEVICE_NO_RESOURCES`. -/
theorem send_some_ret (c : Config) (pkt : PktSerialPkt) (line : Nat) (s : PktSerial) :
    ∃ t, send c (some pkt) line s
      = some (if s.txQueue.length ≤ c.PKT_SERIAL_MAXIMUM_BUFFERS then DEVICE_OK
              else DEVICE_NO_RESOURCES, t) := by
  simp only [send, addToQueue_some]
  by_cases hq : s.txQueue.length ≤ c.PKT_SERIAL_MAXIMUM_BUFFERS <;> simp [hq]

end PktSerial

/-- C15. With `PKT_SERIAL_DATA_SIZE` = 28, `send(buf, 28, address)` on a 28-byte buffer
returns `DEVICE_INVALID_PARAMETER` and leaves the state unchanged, although the length
does not exceed the maximum payload size; a length of 27 is accepted. -/
theorem send_rejects_maximum_length :
    sampleConfig.PKT_SERIAL_DATA_SIZE = 28 ∧ fullPayload.length = 28 ∧
    PktSerial.sendBuf sampleConfig (some fullPayload) 28 5 1 idleRunning
      = some (DEVICE_INVALID_PARAMETER, idleRunning) ∧
    (PktSerial.sendBuf sampleConfig (some fullPayload) 27 5 1 idleRunning).map Prod.fst
      = some DEVICE_OK := by
  refine ⟨by decide, by decide, by decide, by decide⟩

/-- C16. `send(pkt)` with a null packet has no return value: `addToQueue` writes
`packet->next` through the null pointer before anything is checked.  This holds on a
freshly constructed object and on a running idle one. -/
theorem send_null_packet_no_return :
    PktSerial.send sampleConfig none 1 PktSerial.init = none ∧
    PktSerial.send sampleConfig none 1 idleRunning = none ∧
    PktSerial.addToQueue sampleConfig idleRunning.txQueue none idleRunning.irq = none := by
  refine ⟨by decide, by decide, by decide⟩

/-! ## Interrupt mask -/

namespace PktSerial

/-- The calls `popQueue` and `removeFromQueue` return with interrupts enabled when they
were enabled on entry. -/
theorem pop_remove_irq (queue : List PktSerialPkt) (address : Nat) :
    (popQueue queue true).irq = true ∧ (removeFromQueue queue address true).irq = true := by
  constructor
  · cases queue <;> rfl
  · cases queue with
    | nil => rfl
    | cons p rest =>
      simp only [removeFromQueue]
      split <;> rfl

/-- The interrupt state after `addToQueue`: enabled when the packet was accepted,
disabled when `DEVICE_NO_RESOURCES` is returned. -/
theorem addToQueue_irq (c : Config) (queue : List PktSerialPkt) (packet : PktSerialPkt)
    (irq : Bool) (r : QueueResult DeviceCode)
    (hr : addToQueue c queue (some packet) irq = some r) :
    r.irq = decide (r.ret = DEVICE_OK) := by
  rw [addToQueue_some] at hr
  by_cases hq : queue.length ≤ c.PKT_SERIAL_MAXIMUM_BUFFERS
  · simp only [hq, if_true, Option.some.injEq] at hr
    subst hr; rfl
  · simp only [hq, if_false, Option.some.injEq] at hr
    subst hr; rfl

end PktSerial

/-- C17. `addToQueue` is called with interrupts enabled on a full queue: it returns
`DEVICE_NO_RESOURCES` and interrupts are disabled afterwards. -/
theorem addToQueue_full_leaves_irq_disabled :
    (PktSerial.addToQueue sampleConfig elevenPackets (some outgoing) true).map
        (fun r => (r.ret, r.irq))
      = some (DEVICE_NO_RESOURCES, false) := by
  decide

/-! ## Removal by address -/

namespace PktSerial

theorem removeLoop_match (address : Nat) (pre post : List PktSerialPkt) (p : PktSerialPkt)
    (hpre : ∀ x ∈ pre, x.address ≠ address) (hp : p.address = address) :
    removeLoop address (pre ++ p :: post) = (some p, pre ++ post) := by
  induction pre with
  | nil => simp [removeLoop, hp]
  | cons x pre ih =>
    have hx : ¬ address = x.address := fun h => hpre x (List.mem_cons_self _ _) h.symm
    have ih2 := ih (fun y hy => hpre y (List.mem_cons_of_mem _ hy))
    simp [removeLoop, hx, ih2]

theorem removeLoop_no_match (address : Nat) (queue : List PktSerialPkt)
    (h : ∀ x ∈ queue, x.address ≠ address) :
    removeLoop address queue = (none, queue) := by
  induction queue with
  | nil => rfl
  | cons x rest ih =>
    have hx : ¬ address = x.address := fun e => h x (List.mem_cons_self _ _) e.symm
    have ih2 := ih (fun y hy => h y (List.mem_cons_of_mem _ hy))
    simp [removeLoop, hx, ih2]

theorem removeFromQueue_match (address : Nat) (pre post : List PktSerialPkt)
    (p : PktSerialPkt) (irq : Bool)
    (hpre : ∀ x ∈ pre, x.address ≠ address) (hp : p.address = address) :
    (removeFromQueue (pre ++ p :: post) address irq).ret = some p ∧
    (removeFromQueue (pre ++ p :: post) address irq).queue = pre ++ post := by
  cases pre with
  | nil => simp [removeFromQueue, hp]
  | cons x pre =>
    have hx : ¬ address = x.address := fun h => hpre x (List.mem_cons_self _ _) h.symm
    have hl := removeLoop_match address pre post p
      (fun y hy => hpre y (List.mem_cons_of_mem _ hy)) hp
    simp [removeFromQueue, hx, hl]

theorem removeFromQueue_no_match (address : Nat) (queue : List PktSerialPkt) (irq : Bool)
    (h : ∀ x ∈ queue, x.address ≠ address) :
    (removeFromQueue queue address irq).ret = none ∧
    (removeFromQueue queue address irq).queue = queue := by
  cases queue with
  | nil => simp [removeFromQueue]
  | cons x rest =>
    have hx : ¬ address = x.address := fun e => h x (List.mem_cons_self _ _) e.symm
    have hl := removeLoop_no_match address rest (fun y hy => h y (List.mem_cons_of_mem _ hy))
    simp [removeFromQueue, hx, hl]

end PktSerial

/-- C18. `getPacket(address)` returns the first packet of the RX queue, in queue order,
whose address equals the argument, and removes exactly that packet: if the queue is
`pre ++ p :: post`, no packet of `pre` has the address and `p` has it, the call returns
`p` and the queue becomes `pre ++ post`.  If no queued packet has the address it returns
NULL and the queue is unchanged.  Nothing but the RX queue and the interrupt state
changes. -/
theorem getPacket_by_address (address : Nat) (s : PktSerial) :
    (∀ pre p post, s.rxQueue = pre ++ p :: post → (∀ x ∈ pre, x.address ≠ address) →
        p.address = address →
        (PktSerial.getPacketAt address s).1 = some p ∧
        (PktSerial.getPacketAt address s).2.rxQueue = pre ++ post) ∧
    ((∀ x ∈ s.rxQueue, x.address ≠ address) →
        (PktSerial.getPacketAt address s).1 = none ∧
        (PktSerial.getPacketAt address s).2.rxQueue = s.rxQueue) ∧
    (PktSerial.getPacketAt address s).2
      = { s with
          rxQueue := (PktSerial.getPacketAt address s).2.rxQueue
          irq := (PktSerial.getPacketAt address s).2.irq } := by
  refine ⟨?_, ?_, rfl⟩
  · intro pre p post hq hpre hp
    simp only [PktSerial.getPacketAt, hq]
    exact PktSerial.removeFromQueue_match address pre post p s.irq hpre hp
  · intro h
    simp only [PktSerial.getPacketAt]
    exact PktSerial.removeFromQueue_no_match address s.rxQueue s.irq h

/-- C18 on `mixedQueue`: asking for address 2 returns the second packet and leaves the
first, third and fourth queued in that order; asking for address 9 returns NULL. -/
theorem getPacket_by_address_witness :
    (PktSerial.getPacketAt 2 { PktSerial.init with rxQueue := mixedQueue }).1
      = some ⟨11, 2, 1, [5]⟩ ∧
    (PktSerial.getPacketAt 2 { PktSerial.init with rxQueue := mixedQueue }).2.rxQueue
      = [⟨0, 1, 0, []⟩] ++ [⟨0, 3, 0, []⟩, ⟨22, 2, 1, [6]⟩] ∧
    (PktSerial.getPacketAt 9 { PktSerial.init with rxQueue := mixedQueue }).1 = none :=
  ⟨((getPacket_by_address 2 { PktSerial.init with rxQueue := mixedQueue }).1
      [⟨0, 1, 0, []⟩] ⟨11, 2, 1, [5]⟩ [⟨0, 3, 0, []⟩, ⟨22, 2, 1, [6]⟩] rfl (by decide) rfl).1,
   ((getPacket_by_address 2 { PktSerial.init with rxQueue := mixedQueue }).1
      [⟨0, 1, 0, []⟩] ⟨11, 2, 1, [5]⟩ [⟨0, 3, 0, []⟩, ⟨22, 2, 1, [6]⟩] rfl (by decide) rfl).2,
   ((getPacket_by_address 9 { PktSerial.init with rxQueue := mixedQueue }).2.1
      (by decide)).1⟩

/-! ## Display brightness -/

/-- C19. `setBrightness(b)` returns `DEVICE_OK` if and only if `0 <= b <= 255`; in that
case `getBrightness()` returns `b` afterwards and width and height are unchanged.  For
every other `b` it returns `DEVICE_INVALID_PARAMETER` and leaves the display as it
was. -/
theorem setBrightness_spec (d : Display) (b : Int) :
    ((Display.setBrightness b d).1 = DEVICE_OK ↔ 0 ≤ b ∧ b ≤ 255) ∧
    (0 ≤ b ∧ b ≤ 255 →
      Display.getBrightness (Display.setBrightness b d).2 = b ∧
      Display.getWidth (Display.setBrightness b d).2 = Display.getWidth d ∧
      Display.getHeight (Display.setBrightness b d).2 = Display.getHeight d) ∧
    (¬ (0 ≤ b ∧ b ≤ 255) →
      Display.setBrightness b d = (DEVICE_INVALID_PARAMETER, d)) := by
  by_cases h : b < 0 ∨ b > 255
  · have hn : ¬ (0 ≤ b ∧ b ≤ 255) := by omega
    simp [Display.setBrightness, h, hn]
  · have hy : 0 ≤ b ∧ b ≤ 255 := by omega
    simp [Display.setBrightness, h, hy, Display.getBrightness, Display.getWidth,
      Display.getHeight]

/-- C19 on `sampleDisplay`: brightness 255 is stored, brightness 256 is refused. -/
theorem setBrightness_spec_witness :
    Display.getBrightness (Display.setBrightness 255 sampleDisplay).2 = 255 ∧
    Display.setBrightness 256 sampleDisplay = (DEVICE_INVALID_PARAMETER, sampleDisplay) :=
  ⟨((setBrightness_spec sampleDisplay 255).2.1 (by decide)).1,
   (setBrightness_spec sampleDisplay 256).2.2 (by decide)⟩

/-! ## Layout of `JDPacket` -/

/-- C20. With the field widths of `JDPacket` in declaration order (crc 2, version 1,
serial_flags 1, device_identifier 8, size 1, service_number 1, service_command 1,
service_flags 1), `version` lies at byte offset 2 and `data` at byte offset 16, which is
`JD_SERIAL_HEADER_SIZE`; `JD_SERIAL_MAX_PAYLOAD_SIZE` = 236 is the largest multiple of 4
not exceeding 255 - `JD_SERIAL_HEADER_SIZE`; header plus maximum payload is 252, a
multiple of 4 that fits in 8 bits. -/
theorem jdPacket_layout :
    JDField.declared.map JDField.width = [2, 1, 1, 8, 1, 1, 1, 1] ∧
    JDField.offset .version = 2 ∧
    JDField.dataOffset = 16 ∧ JDField.dataOffset = JD_SERIAL_HEADER_SIZE ∧
    JD_SERIAL_MAX_PAYLOAD_SIZE = 236 ∧
    JD_SERIAL_MAX_PAYLOAD_SIZE % 4 = 0 ∧
    JD_SERIAL_MAX_PAYLOAD_SIZE ≤ 255 - JD_SERIAL_HEADER_SIZE ∧
    255 - JD_SERIAL_HEADER_SIZE < JD_SERIAL_MAX_PAYLOAD_SIZE + 4 ∧
    JD_SERIAL_HEADER_SIZE + JD_SERIAL_MAX_PAYLOAD_SIZE = 252 ∧
    (JD_SERIAL_HEADER_SIZE + JD_SERIAL_MAX_PAYLOAD_SIZE) % 4 = 0 ∧
    JD_SERIAL_HEADER_SIZE + JD_SERIAL_MAX_PAYLOAD_SIZE ≤ 255 := by
  refine ⟨by decide, by decide, by decide, by decide, by decide, by decide, by decide,
    by decide, by decide, by decide, by decide⟩

/-! ## Start with the line low or high -/

theorem setFlag_zero_or_and_left (a b : Nat) : setFlag 0 (a ||| b) &&& a = a := by
  apply Nat.eq_of_testBit_eq
  intro i
  simp only [setFlag, Nat.testBit_and, Nat.testBit_or, Nat.zero_testBit]
  cases a.testBit i <;> cases b.testBit i <;> rfl

namespace PktSerial

/-- The status word that `start` installs shows the driver running and neither
Receiving nor Transmitting, when the flag masks are distinct bits and
`DEVICE_COMPONENT_RUNNING` is not zero. -/
theorem start_status_flags (c : Config) (hc : c.FlagsDistinct)
    (hrun : c.DEVICE_COMPONENT_RUNNING ≠ 0) :
    flagSet (setFlag 0 (c.DEVICE_COMPONENT_RUNNING ||| c.DEVICE_COMPONENT_STATUS_SYSTEM_TICK))
        c.DEVICE_COMPONENT_RUNNING = true ∧
    flagSet (setFlag 0 (c.DEVICE_COMPONENT_RUNNING ||| c.DEVICE_COMPONENT_STATUS_SYSTEM_TICK))
        c.PKT_SERIAL_RECEIVING = false ∧
    flagSet (setFlag 0 (c.DEVICE_COMPONENT_RUNNING ||| c.DEVICE_COMPONENT_STATUS_SYSTEM_TICK))
        c.PKT_SERIAL_TRANSMITTING = false := by
  obtain ⟨_, _, _, _, _, _, hKR, hKT⟩ := hc
  refine ⟨?_, ?_, ?_⟩
  · rw [flagSet_eq_true, setFlag_zero_or_and_left]; exact hrun
  · rw [flagSet_setFlag_of_disjoint _ _ _ hKR, flagSet_zero]
  · rw [flagSet_setFlag_of_disjoint _ _ _ hKT, flagSet_zero]

/-- After `start` with the line high the driver is running and idle, edge events are
armed and no DMA call has been issued: the calls are those of `configure(true)`, the
line read and the final `eventOn`. -/
theorem start_line_high (c : Config) (hc : c.FlagsDistinct)
    (hrun : c.DEVICE_COMPONENT_RUNNING ≠ 0) (fresh : PktSerialPkt) (line : Nat)
    (hline : line ≠ 0) (s : PktSerial) :
    isRunning c (start c fresh line s) = true ∧
    ¬ receiving c (start c fresh line s) ∧ ¬ transmitting c (start c fresh line s) ∧
    (start c fresh line s).pinEvent = DEVICE_PIN_EVENT_ON_EDGE ∧
    (start c fresh line s).pin = .input Up ∧
    (start c fresh line s).trace = s.trace ++
      [.getDigitalValue Up, .eventOn DEVICE_PIN_EVENT_ON_EDGE, .getDigitalValue Up,
       .eventOn DEVICE_PIN_EVENT_ON_EDGE] := by
  obtain ⟨h1, h2, h3⟩ := start_status_flags c hc hrun
  cases hb : s.rxBuf <;>
    simp [start, isRunning, receiving, transmitting, configure, call, hline, hb, h1, h2, h3]

/-- After `start` with the line low the driver is running with Receiving set and the
timeout counter at 0, exactly one DMA receive into `rxBuf` has been issued, and the last
call is `eventOn(DEVICE_PIN_EVENT_ON_EDGE)`: edge events are enabled. -/
theorem start_line_low (c : Config) (hc : c.FlagsDistinct)
    (hrun : c.DEVICE_COMPONENT_RUNNING ≠ 0) (fresh : PktSerialPkt) (s : PktSerial) :
    isRunning c (start c fresh 0 s) = true ∧
    receiving c (start c fresh 0 s) ∧
    (start c fresh 0 s).timeoutCounter = 0 ∧
    (start c fresh 0 s).pinEvent = DEVICE_PIN_EVENT_ON_EDGE ∧
    (start c fresh 0 s).trace = s.trace ++
      [.getDigitalValue Up, .eventOn DEVICE_PIN_EVENT_ON_EDGE, .getDigitalValue Up,
       .eventOn DEVICE_PIN_EVENT_NONE, .getDigitalValue PullMode.None,
       .receiveDMA (start c fresh 0 s).rxBuf c.PKT_SERIAL_PACKET_SIZE,
       .eventOn DEVICE_PIN_EVENT_ON_EDGE] := by
  obtain ⟨h1, h2, h3⟩ := start_status_flags c hc hrun
  have hR := hc.1
  have hRR : flagSet (setFlag (setFlag 0
      (c.DEVICE_COMPONENT_RUNNING ||| c.DEVICE_COMPONENT_STATUS_SYSTEM_TICK))
      c.PKT_SERIAL_RECEIVING) c.PKT_SERIAL_RECEIVING = true := flagSet_setFlag_self _ _ hR
  have hRK : flagSet (setFlag (setFlag 0
      (c.DEVICE_COMPONENT_RUNNING ||| c.DEVICE_COMPONENT_STATUS_SYSTEM_TICK))
      c.PKT_SERIAL_RECEIVING) c.DEVICE_COMPONENT_RUNNING = true := by
    rw [flagSet_eq_true] at h1 ⊢
    intro h0
    apply h1
    rw [and_eq_zero_iff_testBit] at h0 ⊢
    intro i hi
    apply h0 i
    simp only [setFlag, Nat.testBit_or] at hi ⊢
    simp [hi.1, hi.2]
  cases hb : s.rxBuf <;>
    simp [start, onFallingEdge, isRunning, receiving, configure, call, hb, h1, h2, h3,
      flagSet_or, hRR, hRK]

end PktSerial

/-- C21. `start()` is called on a freshly constructed object while the pin reads low.
Afterwards the driver is running, Receiving is set, the timeout counter is 0 and exactly
one DMA receive into the RX buffer has been issued, but the call issued last is
`eventOn(DEVICE_PIN_EVENT_ON_EDGE)`: edge events are enabled, not disabled. -/
theorem start_line_low_leaves_edge_events_on :
    PktSerial.isRunning sampleConfig startedLow = true ∧
    flagSet startedLow.status sampleConfig.PKT_SERIAL_RECEIVING = true ∧
    startedLow.timeoutCounter = 0 ∧
    startedLow.trace = PktSerial.init.trace ++
      [.getDigitalValue Up, .eventOn DEVICE_PIN_EVENT_ON_EDGE, .getDigitalValue Up,
       .eventOn DEVICE_PIN_EVENT_NONE, .getDigitalValue PullMode.None,
       .receiveDMA (some ⟨1, 2, 3, [4]⟩) 32, .eventOn DEVICE_PIN_EVENT_ON_EDGE] ∧
    startedLow.pinEvent = DEVICE_PIN_EVENT_ON_EDGE ∧
    startedLow.pinEvent ≠ DEVICE_PIN_EVENT_NONE ∧
    (PktSerial.onFallingEdge sampleConfig idleRunning).pinEvent = DEVICE_PIN_EVENT_NONE := by
  refine ⟨by decide, by decide, by decide, by decide, by decide, by decide, by decide⟩

/-! ## Bytes left out of the CRC -/

/-- C22. The macro `JD_SERIAL_CRC_HEADER_SIZE` is 2, whereas the `crc` and `version`
fields of `JDPacket` are three bytes wide together; `JD_SERIAL_HEADER_SIZE` less the
macro is 14, not the 13 header bytes that follow `version`. -/
theorem crc_header_size_is_two :
    JD_SERIAL_CRC_HEADER_SIZE = 2 ∧
    JDField.width .crc + JDField.width .version = 3 ∧
    JD_SERIAL_CRC_HEADER_SIZE ≠ JDField.width .crc + JDField.width .version ∧
    JD_SERIAL_HEADER_SIZE - JD_SERIAL_CRC_HEADER_SIZE = 14 ∧
    JD_SERIAL_HEADER_SIZE - (JDField.width .crc + JDField.width .version) = 13 ∧
    JDField.offset .serial_flags = 3 := by
  refine ⟨by decide, by decide, by decide, by decide, by decide, by decide⟩

/-! ## The RX buffer during a reception -/

/-- C23. The state reached by `start()` with the line high, `onFallingEdge()` and
`stop()` is reachable, has the Receiving bit set and a null `rxBuf`; a
`SWS_EVT_DATA_RECEIVED` completion in that state hands the null pointer to
`addToQueue`, which has no result on it. -/
theorem receiving_with_null_rxBuf_reachable :
    PktSerial.Reachable sampleConfig stoppedMidReceive ∧
    PktSerial.receiving sampleConfig stoppedMidReceive ∧
    stoppedMidReceive.rxBuf = none ∧
    PktSerial.addToQueue sampleConfig stoppedMidReceive.rxQueue stoppedMidReceive.rxBuf
      stoppedMidReceive.irq = none := by
  refine ⟨⟨stopDuringReceive, by decide⟩, by decide, by decide, by decide⟩

/-! ## Contents of the packet built by `send` -/

namespace PktSerial

theorem map_mod_of_bytes (l : List Nat) (h : ∀ b ∈ l, b < 256) : l.map (· % 256) = l := by
  induction l with
  | nil => rfl
  | cons a l ih =>
    have ha : a % 256 = a := Nat.mod_eq_of_lt (h a (List.mem_cons_self _ _))
    simp [ha, ih (fun b hb => h b (List.mem_cons_of_mem _ hb))]

theorem sum_replicate_zero (n : Nat) : (List.replicate n 0).sum = 0 := by
  induction n with
  | zero => rfl
  | succ n ih => simp [List.replicate_succ, ih]

/-- The fields of the packet built by `send(uint8_t*, int, uint8_t)` before the
checksum loop runs, and the fact that the loop changes only `crc`. -/
theorem buildPacket_fields (c : Config) (bytes : List Nat) (len address : Nat) :
    (buildPacket c bytes len address).address = address % 256 ∧
    (buildPacket c bytes len address).size = len % 256 ∧
    (buildPacket c bytes len address).data
      = (bytes.take len).map (· % 256) ++ (List.replicate c.PKT_SERIAL_DATA_SIZE 0).drop len ∧
    (buildPacket c bytes len address).crc
      = (0 + ((address % 256 :: len % 256 ::
            ((bytes.take len).map (· % 256)
              ++ (List.replicate c.PKT_SERIAL_DATA_SIZE 0).drop len)).take
          (c.PKT_SERIAL_PACKET_SIZE - 2)).sum) % 65536 := by
  simp only [buildPacket, simpleCrc]
  rw [crcLoop_eq _ _ (by simp)]
  simp [body]

end PktSerial

/-- C24. Assume the packet is laid out as `crc` (2 bytes), `address`, `size`, `data`, so
that `PKT_SERIAL_PACKET_SIZE - 2` bytes follow the `crc` field, and that the data area
is at most 256 bytes, the range of the 8-bit `size` field.  Then for every non-null
buffer of bytes holding at least `len` bytes, every accepted length `len` and every
8-bit address, the packet that `send(buf, len, address)` builds and passes on to
`send(pkt)` has `size = len`, the given address, `data[0..len) = buf[0..len)`, all
remaining data bytes zero, and
`crc = (address + len + sum of buf[i] for i < len) mod 2^16`. -/
theorem send_packet_contents (c : Config) (bytes : List Nat) (len : Int)
    (address line : Nat) (s : PktSerial)
    (hlayout : c.PKT_SERIAL_PACKET_SIZE = c.PKT_SERIAL_DATA_SIZE + 4)
    (hsize : c.PKT_SERIAL_DATA_SIZE ≤ 256)
    (hpos : 0 < len) (hmax : len < (c.PKT_SERIAL_DATA_SIZE : Int))
    (hbuf : len.toNat ≤ bytes.length) (hbytes : ∀ b ∈ bytes, b < 256)
    (haddr : address < 256) :
    PktSerial.sendBuf c (some bytes) len address line s
        = PktSerial.send c (some (PktSerial.buildPacket c bytes len.toNat address)) line s ∧
    ((PktSerial.buildPacket c bytes len.toNat address).size : Int) = len ∧
    (PktSerial.buildPacket c bytes len.toNat address).address = address ∧
    (PktSerial.buildPacket c bytes len.toNat address).data.length = c.PKT_SERIAL_DATA_SIZE ∧
    (PktSerial.buildPacket c bytes len.toNat address).data.take len.toNat
        = bytes.take len.toNat ∧
    (PktSerial.buildPacket c bytes len.toNat address).data.drop len.toNat
        = List.replicate (c.PKT_SERIAL_DATA_SIZE - len.toNat) 0 ∧
    (PktSerial.buildPacket c bytes len.toNat address).crc
        = (address + len.toNat + (bytes.take len.toNat).sum) % 65536 := by
  obtain ⟨hA, hS, hD, hC⟩ := PktSerial.buildPacket_fields c bytes len.toNat address
  have hn : len.toNat < c.PKT_SERIAL_DATA_SIZE := by omega
  have htake : ((bytes.take len.toNat).map (· % 256)) = bytes.take len.toNat :=
    PktSerial.map_mod_of_bytes _ (fun b hb => hbytes b (List.mem_of_mem_take hb))
  have hlen : (bytes.take len.toNat).length = len.toNat := by
    rw [List.length_take]; omega
  have hdrop : (List.replicate c.PKT_SERIAL_DATA_SIZE 0).drop len.toNat
      = List.replicate (c.PKT_SERIAL_DATA_SIZE - len.toNat) (0 : Nat) := by
    simp
  have haddr' : address % 256 = address := Nat.mod_eq_of_lt haddr
  have hlen' : len.toNat % 256 = len.toNat := Nat.mod_eq_of_lt (by omega)
  rw [htake, hdrop] at hD
  rw [htake, hdrop, haddr', hlen'] at hC
  refine ⟨?_, ?_, ?_, ?_, ?_, ?_, ?_⟩
  · have h1 : ¬ (len ≤ 0 ∨ len ≥ (c.PKT_SERIAL_DATA_SIZE : Int)) := by omega
    have h2 : ¬ bytes.length < len.toNat := by omega
    simp only [PktSerial.sendBuf, h1, h2, if_false]
  · rw [hS, hlen']; omega
  · rw [hA, haddr']
  · rw [hD, List.length_append, hlen, List.length_replicate]; omega
  · rw [hD, List.take_append_of_le_length (by omega), List.take_of_length_le (by omega)]
  · rw [hD, List.drop_append_of_le_length (by omega), List.drop_of_length_le (by omega)]
    simp
  · rw [hC]
    have hfull : (address :: len.toNat ::
        (bytes.take len.toNat ++ List.replicate (c.PKT_SERIAL_DATA_SIZE - len.toNat) 0)).take
          (c.PKT_SERIAL_PACKET_SIZE - 2)
        = address :: len.toNat ::
        (bytes.take len.toNat ++ List.replicate (c.PKT_SERIAL_DATA_SIZE - len.toNat) 0) := by
      apply List.take_of_length_le
      simp only [List.length_cons, List.length_append, hlen, List.length_replicate]
      omega
    rw [hfull]
    simp only [List.sum_cons, List.sum_append, PktSerial.sum_replicate_zero]
    congr 1
    omega

/-- C24 on the buffer `[1, 2, 3]` sent to address 7 under `sampleConfig` (32-byte
packets, 28 data bytes): size 3, the three bytes followed by 25 zeros, and checksum
7 + 3 + 1 + 2 + 3 = 16. -/
theorem send_packet_contents_witness :
    (PktSerial.buildPacket sampleConfig [1, 2, 3] 3 7)
      = ⟨16, 7, 3, [1, 2, 3] ++ List.replicate 25 0⟩ ∧
    (PktSerial.buildPacket sampleConfig [1, 2, 3] (3 : Int).toNat 7).crc
      = (7 + (3 : Int).toNat + (([1, 2, 3] : List Nat).take (3 : Int).toNat).sum) % 65536 :=
  ⟨by decide,
   (send_packet_contents sampleConfig [1, 2, 3] 3 7 1 PktSerial.init (by decide) (by decide)
      (by decide) (by decide) (by decide) (by decide) (by decide)).2.2.2.2.2.2⟩
